import Mathlib

/-!
Verification of the `vantage` reasoning/planning core against its specification.

This file shallowly embeds the Go sources of the repository:

* `core/reasoning/attack_path.go`, `core/reasoning/campaign.go` and the scorer
  (`scorePathWithCache` and its helpers) — the beam searches over counting
  graph snapshots;
* `core/exposure/exposure.go` — the monotone exposure tracker;
* `core/evidence/signature.go` — evidence artifact signing/verification;
* `core/executor/engine.go` and `Engine.RunCycle` — the execution cycle.

Modelling conventions:

* Go `float64` is modelled by `ℚ`.  Every constant in the scoring code is a
  decimal literal and all claims checked here are either exact-field
  computations or are witnessed at inputs where the two computations being
  compared are operand-for-operand identical, so the idealisation does not
  change any compared outcome.
* Go `uint64` is modelled by `Nat` with arithmetic reduced `% 2^64` where Go
  wraps.
* Go strings are modelled by `String`; Go's byte-wise string comparison is
  modelled by an explicit byte-wise comparison on the character codes
  (`strLtB`), which agrees with Go on all ASCII data used by the engine.
* Go maps used as sets/dictionaries are modelled by association lists; every
  observable use in the embedded code is order-insensitive (the code sorts
  before it reads map contents).
* `sort.Slice` is modelled by insertion sort over the source's comparator.
  Everywhere a sorted result is consumed the comparator is strictly total on
  the list (so any correct sort produces the same list), except for the final
  attack-path sort where only permutation-invariant and sortedness facts are
  stated.
-/

attribute [local semireducible] Rat.add Rat.mul Rat.sub Rat.inv Rat.ofScientific

set_option linter.unusedVariables false

namespace Vantage

/-! ### Generic helpers: byte-wise string order, association lists, sorting -/

/-- Byte-wise lexicographic `<` on lists of character codes; this is Go's
`<` on strings, restricted to the ASCII data the engine manipulates. -/
def natListLtB : List Nat → List Nat → Bool
  | [], [] => false
  | [], _ :: _ => true
  | _ :: _, [] => false
  | a :: as, b :: bs => decide (a < b) || (decide (a = b) && natListLtB as bs)

/-- Character codes of a string. -/
def strCodes (s : String) : List Nat := s.data.map (fun c => c.val.toNat)

/-- Go string comparison `a < b`. -/
def strLtB (a b : String) : Bool := natListLtB (strCodes a) (strCodes b)

/-- Association-list lookup (Go map read). -/
def assocGet {α : Type} (l : List (String × α)) (k : String) : Option α :=
  match l.find? (fun p => p.1 = k) with
  | some p => some p.2
  | none => none

/-- Association-list insert-or-replace (Go map write). -/
def assocPut {α : Type} (l : List (String × α)) (k : String) (v : α) : List (String × α) :=
  if (l.find? (fun p => p.1 = k)).isSome then
    l.map (fun p => if p.1 = k then (k, v) else p)
  else
    l ++ [(k, v)]

/-- Go's `sort.Slice` comparator shape used throughout the planners:
score descending, with an arbitrary boolean tie-break `kLt` on equal scores. -/
def goLessB {α : Type} (s : α → ℚ) (kLt : α → α → Bool) (a b : α) : Bool :=
  if s a = s b then kLt a b else decide (s b < s a)

/-- `a` may precede `b` in a list sorted by `goLessB`. -/
def goSortLe {α : Type} (s : α → ℚ) (kLt : α → α → Bool) (a b : α) : Prop :=
  goLessB s kLt b a = false

instance {α : Type} (s : α → ℚ) (kLt : α → α → Bool) : DecidableRel (goSortLe s kLt) :=
  fun a b => instDecidableEqBool (goLessB s kLt b a) false

/-- `sort.Slice` with the comparator `goLessB s kLt`, modelled by insertion
sort.  Wherever the embedded code consumes element order, the comparator is
strictly total on the sorted list, so this agrees with Go's (unstable) sort. -/
def goSort {α : Type} (s : α → ℚ) (kLt : α → α → Bool) (l : List α) : List α :=
  List.insertionSort (goSortLe s kLt) l

/-- Plain ascending string sort (`sort.Strings`). -/
def sortStrings (l : List String) : List String :=
  List.insertionSort (fun a b => strLtB b a = false) l

/-- Ascending sort by a string key (`sort.Slice` with `key i < key j`). -/
def sortByStrKey {α : Type} (k : α → String) (l : List α) : List α :=
  List.insertionSort (fun a b => strLtB (k b) (k a) = false) l

/-- A predicate holding on the payload of a non-error `Except` result. -/
def exceptAll {ε β : Type} (p : β → Prop) : Except ε β → Prop
  | .ok b => p b
  | .error _ => True

instance {ε β : Type} (p : β → Prop) [DecidablePred p] (r : Except ε β) :
    Decidable (exceptAll p r) := by
  cases r with
  | ok b => exact (inferInstance : Decidable (p b))
  | error e => exact (inferInstance : Decidable True)

instance {ε α : Type} [DecidableEq ε] [DecidableEq α] : DecidableEq (Except ε α) := fun x y =>
  match x, y with
  | .ok a, .ok b =>
      if h : a = b then .isTrue (by rw [h]) else .isFalse (fun hc => h (Except.ok.inj hc))
  | .error a, .error b =>
      if h : a = b then .isTrue (by rw [h]) else .isFalse (fun hc => h (Except.error.inj hc))
  | .ok _, .error _ => .isFalse (fun hc => Except.noConfusion hc)
  | .error _, .ok _ => .isFalse (fun hc => Except.noConfusion hc)

/-! ### Operation phases (`state` package, `OperationPhase`) -/

abbrev NodeType := String
abbrev EdgeType := String
abbrev OperationPhase := String

def PhaseRecon : OperationPhase := "RECON"

def PhaseInitialAccess : OperationPhase := "INITIAL_ACCESS"

def PhasePersistence : OperationPhase := "PERSISTENCE"

def PhasePrivEsc : OperationPhase := "PRIV_ESC"

def PhaseLateralMovement : OperationPhase := "LATERAL_MOVEMENT"

def PhaseC2 : OperationPhase := "C2"

def PhaseObjective : OperationPhase := "OBJECTIVE"

def PhaseExfil : OperationPhase := "EXFIL"

def phaseOrder : List OperationPhase :=
  [PhaseRecon, PhaseInitialAccess, PhasePersistence, PhasePrivEsc,
   PhaseLateralMovement, PhaseC2, PhaseObjective, PhaseExfil]

/-- `OperationPhase.Next`: the next phase in `phaseOrder` (`none` both when the
phase is unknown and when it is final, matching the Go `(p, false)` returns). -/
def phaseNext (p : OperationPhase) : Option OperationPhase :=
  go phaseOrder
where
  go : List OperationPhase → Option OperationPhase
    | [] => none
    | a :: rest => if a = p then rest.head? else go rest

/-- `phaseAllowed` from `attack_path.go`: same phase or the immediate next. -/
def phaseAllowed (current candidate : OperationPhase) : Bool :=
  if current = candidate then true
  else
    match phaseNext current with
    | some nx => nx = candidate
    | none => false

/-! ### Campaign execution state (`state.Campaign`, the fields the planners read) -/

inductive CStatus
  | initialized | running | halted | completed
deriving DecidableEq, Repr

/-- The slice of `state.Campaign` observed by the embedded code: the campaign
id, lifecycle status and execution counter. -/
structure CampaignState where
  campaignID : String
  status : CStatus
  executions : Nat
deriving DecidableEq, Repr

/-- `phaseForState` from `action_binder.go` (a `none` state is Go's nil). -/
def phaseForState (st : Option CampaignState) : OperationPhase :=
  match st with
  | none => PhaseRecon
  | some s =>
      if s.executions ≥ 5 then PhaseObjective
      else if s.executions ≥ 3 then PhaseLateralMovement
      else PhaseRecon

/-! ### Graph model (`core/reasoning` graph store) -/

structure Node where
  id : String
  type : NodeType
  label : String
  metadata : List (String × String)
deriving DecidableEq, Repr

structure Edge where
  src : String
  dst : String
  type : EdgeType
  weight : ℚ
deriving DecidableEq, Repr

/-- The reasoning graph: a node map (association list keyed by id) and an
edge list, as in `Graph` from the reasoning package. -/
structure Graph where
  nodes : List (String × Node)
  edges : List Edge
deriving DecidableEq, Repr

/-- `Graph.UpsertNode` (creation-time bookkeeping omitted; `none` node and
empty ids are rejected exactly as in the source). -/
def upsertNode (g : Graph) (n : Node) : Graph :=
  if n.id = "" then g else { g with nodes := assocPut g.nodes n.id n }

/-- `Graph.AddEdge`: fails when either endpoint is missing. -/
def addEdge (g : Graph) (e : Edge) : Except String Graph :=
  if e.src = "" ∨ e.dst = "" then .error ("invalid edge")
  else if (assocGet g.nodes e.src).isNone then .error ("from node not found")
  else if (assocGet g.nodes e.dst).isNone then .error ("to node not found")
  else .ok { g with edges := g.edges ++ [e] }

/-- `Graph.NodesByType`: nodes of one kind, sorted ascending by id. -/
def nodesByType (g : Graph) (t : NodeType) : List Node :=
  sortByStrKey Node.id ((g.nodes.map Prod.snd).filter (fun n => n.type = t))

/-- Read-locked graph operations thread the graph unchanged; mutating
operations return the updated graph.  The planners below are written against
these state-threading variants so that the frame property (claim C6) is a
statement about which operations the search actually performs. -/
def snapshotNodeCountsOf (g : Graph) : List (NodeType × Nat) :=
  (g.nodes.map Prod.snd).foldl (fun acc n => incCount acc n.type) []
where
  incCount (l : List (NodeType × Nat)) (k : NodeType) : List (NodeType × Nat) :=
    if (l.find? (fun p => p.1 = k)).isSome then
      l.map (fun p => if p.1 = k then (p.1, p.2 + 1) else p)
    else
      l ++ [(k, 1)]

/-! ### Graph snapshots (`graphSnapshot` from `attack_path.go`) -/

/-- Counting projection of a graph: node-kind and edge-kind counts. -/
structure Snapshot where
  nodeCounts : List (NodeType × Nat)
  edgeCounts : List (EdgeType × Nat)
deriving DecidableEq, Repr

def countIncr (l : List (String × Nat)) (k : String) : List (String × Nat) :=
  if (l.find? (fun p => p.1 = k)).isSome then
    l.map (fun p => if p.1 = k then (p.1, p.2 + 1) else p)
  else
    l ++ [(k, 1)]

def countOf (l : List (String × Nat)) (k : String) : Nat :=
  match assocGet l k with
  | some c => c
  | none => 0

/-- `snapshotFromGraph`, as a read on the live graph. -/
def snapshotFromGraph (g : Graph) : Snapshot :=
  { nodeCounts := (g.nodes.map Prod.snd).foldl (fun acc n => countIncr acc n.type) []
    edgeCounts := g.edges.foldl (fun acc e => countIncr acc e.type) [] }

/-- The read-locked `snapshotFromGraph` call on the live graph: returns the
snapshot and the (unchanged) graph. -/
def snapshotFromGraphSt (g : Graph) : Snapshot × Graph := (snapshotFromGraph g, g)

/-- `graphSnapshot.clone`; snapshots are immutable values here, so a clone is
the value itself (subsequent `applyAction`s build fresh values, which is what
the Go deep copy achieves). -/
def snapshotClone (s : Snapshot) : Snapshot := s

def hasNodeType (s : Snapshot) (t : NodeType) : Bool := countOf s.nodeCounts t > 0

def hasEdgeType (s : Snapshot) (t : EdgeType) : Bool := countOf s.edgeCounts t > 0

/-! ### Action classes and patterns -/

structure GraphPattern where
  requiredNodeTypes : List NodeType
  requiredEdges : List EdgeType
deriving DecidableEq, Repr

structure ActionClass where
  id : String
  name : String
  phase : OperationPhase
  preconditions : List GraphPattern
  producesNodes : List NodeType
  producesEdges : List EdgeType
  riskWeight : ℚ
  impactWeight : ℚ
  confidenceBoost : ℚ
deriving DecidableEq, Repr

/-- `graphSnapshot.applyAction`: bump the produced node/edge kind counts. -/
def applyAction (s : Snapshot) (ac : ActionClass) : Snapshot :=
  { nodeCounts := ac.producesNodes.foldl countIncr s.nodeCounts
    edgeCounts := ac.producesEdges.foldl countIncr s.edgeCounts }

/-- `graphSnapshot.hash`: sorted `n:kind:count` then `e:kind:count` keys joined
with `|`. -/
def snapshotHash (s : Snapshot) : String :=
  let nodeKeys := sortStrings (s.nodeCounts.map
    (fun p => "n:" ++ p.1 ++ ":" ++ toString p.2))
  let edgeKeys := sortStrings (s.edgeCounts.map
    (fun p => "e:" ++ p.1 ++ ":" ++ toString p.2))
  String.intercalate "|" (nodeKeys ++ edgeKeys)

/-- `matchSnapshotPatterns`: every required node/edge kind of every pattern is
present in the snapshot. -/
def matchSnapshotPatterns (s : Snapshot) (patterns : List GraphPattern) : Bool :=
  patterns.all (fun pattern =>
    pattern.requiredNodeTypes.all (fun t => hasNodeType s t) &&
    pattern.requiredEdges.all (fun t => hasEdgeType s t))

/-- `requiredNodes`: the distinct required node kinds of a pattern list,
sorted ascending. -/
def requiredNodes (patterns : List GraphPattern) : List NodeType :=
  sortStrings (patterns.foldl
    (fun acc p => p.requiredNodeTypes.foldl
      (fun acc' n => if n ∈ acc' then acc' else acc' ++ [n]) acc) [])

/-- `actionClassIndex` from `attack_path.go`. -/
structure ActionClassIndex where
  byRequiredNode : List (NodeType × List ActionClass)
  withoutReq : List ActionClass
deriving Repr

def buildActionClassIndex (classes : List ActionClass) : ActionClassIndex :=
  classes.foldl
    (fun idx ac =>
      let nodes := requiredNodes ac.preconditions
      if nodes.isEmpty then { idx with withoutReq := idx.withoutReq ++ [ac] }
      else
        let m' := nodes.foldl
          (fun m n =>
            match assocGet m n with
            | some acs => assocPut m n (acs ++ [ac])
            | none => assocPut m n [ac]) idx.byRequiredNode
        { idx with byRequiredNode := m' })
    { byRequiredNode := [], withoutReq := [] }

/-- `actionClassIndex.eligible`: classes with no preconditions plus classes
indexed under a node kind present in the snapshot, deduplicated by id and
sorted ascending by id. -/
def eligible (idx : ActionClassIndex) (s : Snapshot) : List ActionClass :=
  let seen0 := idx.withoutReq.foldl (fun m ac => assocPut m ac.id ac) []
  let seen1 := s.nodeCounts.foldl
    (fun m p =>
      if p.2 = 0 then m
      else
        match assocGet idx.byRequiredNode p.1 with
        | some acs => acs.foldl (fun m' ac => assocPut m' ac.id ac) m
        | none => m) seen0
  sortByStrKey ActionClass.id (seen1.map Prod.snd)

/-! ### Node/edge kind constants -/

def NodeTypeEvidence : NodeType := "evidence"

def NodeTypeHypothesis : NodeType := "hypothesis"

def NodeTypeAttackPath : NodeType := "attack_path"

def NodeTypeTechnique : NodeType := "technique"

def EdgeTypeSupports : EdgeType := "supports"

def EdgeTypeEnables : EdgeType := "enables"

def EdgeTypeRefines : EdgeType := "refines"

/-! ### Scorer (`scorePathWithCache` and helpers) -/

/-- Scoring constants from the scorer file, with the source's exact values. -/
def ConfidenceWeight : ℚ := 0.8

def FeasibilityWeight : ℚ := 1.1

def UnlockFactor : ℚ := 0.15

def RiskThresholdConst : ℚ := 2.0

def SmallRiskFactor : ℚ := 0.4

def DepthFactor : ℚ := 0.25

def ObjectiveProximityFactor : ℚ := 1.35

structure Hypothesis where
  id : String
  actionClassID : String
  statement : String
  supportingNodeIDs : List String
  derivedFrom : List String
  confidence : ℚ
deriving DecidableEq, Repr

structure AttackPath where
  steps : List Hypothesis
  score : ℚ
  risk : ℚ
  objective : NodeType
  objectiveProximityScore : ℚ
  valid : Bool
deriving DecidableEq, Repr

/-- The ROE policy hook is injected as a pure predicate over the action class,
the live graph and the campaign state; the spec forbids the policy from
mutating the graph, and the embedding reflects that proviso. -/
structure AttackPathConfig where
  maxDepth : Int
  beamWidth : Int
  riskThreshold : ℚ
  depthPenalty : ℚ
  confidenceWeight : ℚ
  startNodeTypes : List NodeType
  objectiveNodeTypes : List NodeType
  roePolicy : Option (ActionClass → Graph → Option CampaignState → Bool)

def DefaultAttackPathConfig : AttackPathConfig :=
  { maxDepth := 4
    beamWidth := 25
    riskThreshold := 2.0
    depthPenalty := 0.1
    confidenceWeight := 0.25
    startNodeTypes := [NodeTypeEvidence, NodeTypeHypothesis, NodeTypeTechnique]
    objectiveNodeTypes := [NodeTypeAttackPath, NodeTypeTechnique]
    roePolicy := some (fun _ _ _ => true) }

/-- `cumulativeRisk`: the sum of the classes' risk weights. -/
def cumulativeRisk (classes : List ActionClass) : ℚ :=
  classes.foldl (fun total ac => total + ac.riskWeight) 0

/-- `producesNode` (from `campaign.go`). -/
def producesNode (nodes : List NodeType) (objective : NodeType) : Bool :=
  nodes.any (fun node => node = objective)

/-- `findObjective`: first configured objective kind among the produced kinds. -/
def findObjective (objectiveNodeTypes produced : List NodeType) : NodeType × Bool :=
  match objectiveNodeTypes.find? (fun objective => produced.any (fun p => objective = p)) with
  | some objective => (objective, true)
  | none => ("", false)

/-- Insert into a Go map-as-set (`map[T]struct{}`). -/
def setAdd (l : List String) (x : String) : List String :=
  if x ∈ l then l else l ++ [x]

/-- `patternSatisfied`. -/
def patternSatisfied (pattern : GraphPattern) (nodeTypes edgeTypes : List String) : Bool :=
  pattern.requiredNodeTypes.all (fun requiredNode => requiredNode ∈ nodeTypes) &&
  pattern.requiredEdges.all (fun requiredEdge => requiredEdge ∈ edgeTypes)

/-- `matchedPreconditions`: (number of satisfied patterns, number of patterns). -/
def matchedPreconditions (patterns : List GraphPattern) (nodeTypes edgeTypes : List String) :
    Nat × Nat :=
  (patterns.foldl (fun m pattern =>
      if patternSatisfied pattern nodeTypes edgeTypes then m + 1 else m) 0,
   patterns.length)

/-- `preconditionsEligible`. -/
def preconditionsEligible (patterns : List GraphPattern) (nodeTypes edgeTypes : List String) :
    Bool :=
  patterns.all (fun pattern => patternSatisfied pattern nodeTypes edgeTypes)

/-- `averageFeasibility`: walk the path from availability `{Evidence}`, fold in
produced kinds, and average each step's satisfied-precondition fraction
(a step with no preconditions counts as 1). -/
def averageFeasibility (path : List ActionClass) : ℚ :=
  if path.isEmpty then 0
  else
    let final := path.foldl
      (fun (acc : List String × List String × ℚ) ac =>
        let (nodeTypes, edgeTypes, totalFrac) := acc
        let (matched, total) := matchedPreconditions ac.preconditions nodeTypes edgeTypes
        let frac : ℚ := if total > 0 then (matched : ℚ) / (total : ℚ) else 1
        (ac.producesNodes.foldl setAdd nodeTypes,
         ac.producesEdges.foldl setAdd edgeTypes,
         totalFrac + frac))
      ([NodeTypeEvidence], [], 0)
    final.2.2 / (path.length : ℚ)

/-- `availabilityAfterPath`: node/edge kinds available after applying every
step of the path, starting from `{Evidence}`. -/
def availabilityAfterPath (path : List ActionClass) : List String × List String :=
  path.foldl
    (fun (acc : List String × List String) ac =>
      (ac.producesNodes.foldl setAdd acc.1, ac.producesEdges.foldl setAdd acc.2))
    ([NodeTypeEvidence], [])

/-- `availabilityBeforeLast`. -/
def availabilityBeforeLast (path : List ActionClass) : List String × List String :=
  if path.length ≤ 1 then ([NodeTypeEvidence], [])
  else availabilityAfterPath (path.take (path.length - 1))

/-- Go `fmt.Sprintf("%v", strs)` for a string slice. -/
def goFmtStrings (strs : List String) : String :=
  "[" ++ String.intercalate " " strs ++ "]"

/-- `availabilityHash`. -/
def availabilityHash (nodes edges : List String) : String :=
  "n=" ++ goFmtStrings (sortStrings nodes) ++ "|e=" ++ goFmtStrings (sortStrings edges)

/-- The shared unlock-count cache (`map[string]float64`, possibly nil). -/
abbrev Cache := Option (List (String × ℚ))

/-- `unlockedActionCount` with its cache (keyed by graph hash and the
before/after availability hashes). -/
def unlockedActionCount (path univ : List ActionClass) (cache : Cache)
    (graphHash : String) : ℚ × Cache :=
  if path.isEmpty ∨ univ.isEmpty then (0, cache)
  else
    let (beforeNodes, beforeEdges) := availabilityBeforeLast path
    let (afterNodes, afterEdges) := availabilityAfterPath path
    let selected := path.map ActionClass.id
    let cacheKey := graphHash ++ "|" ++ availabilityHash beforeNodes beforeEdges ++
      "|" ++ availabilityHash afterNodes afterEdges
    match cache with
    | some m =>
        match assocGet m cacheKey with
        | some v => (v, some m)
        | none =>
            let unlocked := countUnlocked univ selected beforeNodes beforeEdges
              afterNodes afterEdges
            ((unlocked : ℚ), some (assocPut m cacheKey (unlocked : ℚ)))
    | none =>
        let unlocked := countUnlocked univ selected beforeNodes beforeEdges
          afterNodes afterEdges
        ((unlocked : ℚ), none)
where
  countUnlocked (univ : List ActionClass) (selected : List String)
      (beforeNodes beforeEdges afterNodes afterEdges : List String) : Nat :=
    univ.foldl
      (fun unlocked candidate =>
        if candidate.id ∈ selected then unlocked
        else
          let wasEligible := preconditionsEligible candidate.preconditions beforeNodes beforeEdges
          let isEligible := preconditionsEligible candidate.preconditions afterNodes afterEdges
          if !wasEligible && isEligible then unlocked + 1 else unlocked) 0

/-- `riskPenalty`: quadratic above the risk threshold, linear below. -/
def riskPenalty (risk : ℚ) : ℚ :=
  if risk > RiskThresholdConst then risk * risk else risk * SmallRiskFactor

/-- `objectiveProximity` (scorer file). -/
def objectiveProximity (pathClasses : List ActionClass) (objective : NodeType)
    (cfg : AttackPathConfig) : ℚ :=
  match pathClasses.getLast? with
  | none => 0
  | some last =>
      if objective ≠ "" ∧ producesNode last.producesNodes objective then 1
      else if objective = "" ∧ ¬ cfg.objectiveNodeTypes.isEmpty ∧
          cfg.objectiveNodeTypes.any (fun o => producesNode last.producesNodes o) then 0.9
      else 1 / ((pathClasses.length : ℚ) + 1)

/-- `scorePathWithCache`.  The risk/confidence accumulation loop runs over
`pathClasses`, adding `steps[i].Confidence` only for `i < len(steps)`; this is
the sum over `pathClasses.zip steps`. -/
def scorePathWithCache (steps : List Hypothesis) (pathClasses allClasses : List ActionClass)
    (objective : NodeType) (cfg : AttackPathConfig) (cache : Cache) (graphHash : String) :
    AttackPath × Cache :=
  let risk := cumulativeRisk pathClasses
  let totalConfidence := ((pathClasses.zip steps).map (fun p => p.2.confidence)).foldl (· + ·) 0
  let averageConfidence : ℚ :=
    if steps.length > 0 then totalConfidence / (steps.length : ℚ) else 0
  let feasibilityScore := averageFeasibility pathClasses
  let (unlockCount, cache') := unlockedActionCount pathClasses allClasses cache graphHash
  let unlockBonus := unlockCount * UnlockFactor
  let score := averageConfidence * ConfidenceWeight + feasibilityScore * FeasibilityWeight +
    unlockBonus - riskPenalty risk - (steps.length : ℚ) * DepthFactor
  let proximity := objectiveProximity pathClasses objective cfg
  let score := score + proximity
  let score := if objective ≠ "" then score * ObjectiveProximityFactor else score
  ({ steps := steps, score := score, risk := risk, objective := objective,
     objectiveProximityScore := proximity, valid := true }, cache')

/-- `scorePath`: the cache-free entry point (nil cache). -/
def scorePath (steps : List Hypothesis) (pathClasses allClasses : List ActionClass)
    (objective : NodeType) (cfg : AttackPathConfig) : AttackPath :=
  (scorePathWithCache steps pathClasses allClasses objective cfg none "").1

/-- `hypothesisForAction`. -/
def hypothesisForAction (ac : ActionClass) (idx : Nat) : Hypothesis :=
  { id := "path-hyp-" ++ ac.id ++ "-" ++ toString idx
    actionClassID := ac.id
    statement := "Action class " ++ ac.name ++ " is feasible"
    supportingNodeIDs := []
    derivedFrom := []
    confidence := 0.5 + ac.confidenceBoost }

/-- `buildHypotheses`: one hypothesis per step, indexed from 1. -/
def buildHypotheses (classes : List ActionClass) : List Hypothesis :=
  go 0 classes
where
  go : Nat → List ActionClass → List Hypothesis
    | _, [] => []
    | i, ac :: rest => hypothesisForAction ac (i + 1) :: go (i + 1) rest

/-- `actionInStack`. -/
def actionInStack (stack : List ActionClass) (id : String) : Bool :=
  stack.any (fun step => step.id = id)

/-- `actionStackKey`: Go `fmt.Sprintf("%v", ids)`. -/
def actionStackKey (stack : List ActionClass) : String :=
  goFmtStrings (stack.map ActionClass.id)

/-- `pathKey`: the id list plus the objective. -/
def pathKey (path : AttackPath) : String :=
  goFmtStrings (path.steps.map Hypothesis.actionClassID) ++ "|" ++ path.objective

/-! ### Reasoning engine and attack-path expansion (`ExpandAttackPaths`) -/

/-- The slice of the reasoning `Engine` read by the planners: the live graph,
the campaign state pointer, the bound action classes and the attack-path
configuration. -/
structure Engine where
  graph : Graph
  state : Option CampaignState
  classes : List ActionClass
  attackPathConfig : AttackPathConfig

/-- Modelled from the spec: `DefaultActionBinder.Classes()` (called via
`Engine.boundActionClasses`) is not among the provided sources; per spec §4.2
(`classes() → slice`) it returns the bound action-class slice.  Every consumer
below either re-sorts the slice or reads it order-insensitively. -/
def boundActionClasses (e : Engine) : List ActionClass := e.classes

/-- `Engine.seedNodeCount`: total number of live-graph nodes whose kind is a
start kind. -/
def seedNodeCount (g : Graph) (types : List NodeType) : Nat :=
  types.foldl (fun total t => total + (nodesByType g t).length) 0

/-- The read-locked `seedNodeCount` against the live graph. -/
def seedNodeCountSt (g : Graph) (types : List NodeType) : Nat × Graph :=
  (seedNodeCount g types, g)

/-- The nil-field normalisation at the top of `ExpandAttackPaths`. -/
def normalizeAttackPathConfig (cfg0 : AttackPathConfig) : AttackPathConfig :=
  let cfg1 := if cfg0.maxDepth ≤ 0 then DefaultAttackPathConfig else cfg0
  let cfg2 := if cfg1.beamWidth ≤ 0 then
      { cfg1 with beamWidth := DefaultAttackPathConfig.beamWidth } else cfg1
  if cfg2.roePolicy.isNone then { cfg2 with roePolicy := some (fun _ _ _ => true) } else cfg2

/-- `attackCandidate`. -/
structure AttackCandidate where
  graph : Snapshot
  stack : List ActionClass
  score : ℚ
  key : String

/-- `pruneAttackBeam`: sort by score descending, key ascending, truncate to
the beam width. -/
def pruneAttackBeam (beam : List AttackCandidate) (width : Int) : List AttackCandidate :=
  let sorted := goSort AttackCandidate.score (fun a b => strLtB a.key b.key) beam
  if (sorted.length : Int) > width then sorted.take width.toNat else sorted

/-- Accumulator for one depth of the attack-path beam loop. -/
structure AttackAcc where
  nextBeam : List AttackCandidate
  paths : List AttackPath
  seen : List String
  cache : Cache

/-- Extension step: append a non-repeating, phase-allowed, precondition-matching
action to the candidate's stack. -/
def attackExtendStep (cfg : AttackPathConfig) (classes : List ActionClass)
    (currentPhase : OperationPhase) (gCopy : Snapshot) (cand : AttackCandidate)
    (acc : AttackAcc) (next : ActionClass) : AttackAcc :=
  if ¬ (phaseAllowed currentPhase next.phase) ∨ actionInStack cand.stack next.id then acc
  else if ¬ (matchSnapshotPatterns gCopy next.preconditions) then acc
  else
    let nextStack := cand.stack ++ [next]
    let (nextScored, cache') := scorePathWithCache (buildHypotheses nextStack) nextStack
      classes "" cfg acc.cache (snapshotHash gCopy)
    { acc with
        nextBeam := acc.nextBeam ++
          [{ graph := gCopy, stack := nextStack, score := nextScored.score,
             key := actionStackKey nextStack }]
        cache := cache' }

/-- Body of the depth loop of `ExpandAttackPaths` for one beam candidate:
re-verify the latest step, apply it to the cloned snapshot, prune on risk,
emit a deduplicated path when an objective kind is produced, and (below the
final depth) extend with eligible actions. -/
def visitAttackCandidate (liveGraph : Graph) (st : Option CampaignState)
    (idx : ActionClassIndex) (cfg : AttackPathConfig)
    (roe : ActionClass → Graph → Option CampaignState → Bool)
    (classes : List ActionClass) (currentPhase : OperationPhase) (extendMore : Bool)
    (acc : AttackAcc) (cand : AttackCandidate) : AttackAcc :=
  match cand.stack.getLast? with
  | none => acc
  | some latest =>
    let gCopy := snapshotClone cand.graph
    if ¬ (matchSnapshotPatterns gCopy latest.preconditions && roe latest liveGraph st) then acc
    else
      let gCopy := applyAction gCopy latest
      let risk := cumulativeRisk cand.stack
      let riskLimit := cfg.riskThreshold
      let riskLimit := if riskLimit > 0 ∧ riskLimit < 2.0 then riskLimit * 0.9 else riskLimit
      if riskLimit > 0 ∧ risk > riskLimit then acc
      else
        let (objective, reached) := findObjective cfg.objectiveNodeTypes latest.producesNodes
        let (path, cache1) := scorePathWithCache (buildHypotheses cand.stack) cand.stack
          classes objective cfg acc.cache (snapshotHash gCopy)
        let (paths1, seen1) :=
          if reached then
            if pathKey path ∈ acc.seen then (acc.paths, acc.seen)
            else (acc.paths ++ [path], acc.seen ++ [pathKey path])
          else (acc.paths, acc.seen)
        let acc1 : AttackAcc :=
          { nextBeam := acc.nextBeam, paths := paths1, seen := seen1, cache := cache1 }
        if ¬ extendMore then acc1
        else (eligible idx gCopy).foldl
          (attackExtendStep cfg classes currentPhase gCopy cand) acc1

/-- The depth loop of `ExpandAttackPaths` (`fuel` counts the remaining depths;
`fuel = 1` is the final depth, at which no candidate is extended). -/
def attackLoop (liveGraph : Graph) (st : Option CampaignState) (idx : ActionClassIndex)
    (cfg : AttackPathConfig) (roe : ActionClass → Graph → Option CampaignState → Bool)
    (classes : List ActionClass) (currentPhase : OperationPhase) :
    Nat → List AttackCandidate → List AttackPath → List String → Cache → List AttackPath
  | 0, _, paths, _, _ => paths
  | fuel + 1, beam, paths, seen, cache =>
    if beam.isEmpty then paths
    else
      let acc := beam.foldl
        (visitAttackCandidate liveGraph st idx cfg roe classes currentPhase (fuel != 0))
        { nextBeam := [], paths := paths, seen := seen, cache := cache }
      attackLoop liveGraph st idx cfg roe classes currentPhase fuel
        (pruneAttackBeam acc.nextBeam cfg.beamWidth) acc.paths acc.seen acc.cache

/-- The initial-beam step of `ExpandAttackPaths`: admit each eligible root
action whose phase is allowed, that the ROE policy accepts, and whose
preconditions match the base snapshot, scoring its single-step path. -/
def attackRootStep (cfg : AttackPathConfig)
    (roe : ActionClass → Graph → Option CampaignState → Bool)
    (classes : List ActionClass) (currentPhase : OperationPhase) (baseSnapshot : Snapshot)
    (liveGraph : Graph) (st : Option CampaignState)
    (acc : List AttackCandidate × Cache) (root : ActionClass) :
    List AttackCandidate × Cache :=
  if phaseAllowed currentPhase root.phase && roe root liveGraph st &&
      matchSnapshotPatterns baseSnapshot root.preconditions then
    let stack := [root]
    let (scored, cache') := scorePathWithCache (buildHypotheses stack) stack classes
      "" cfg acc.2 (snapshotHash baseSnapshot)
    let cand : AttackCandidate :=
      { graph := snapshotClone baseSnapshot, stack := stack,
        score := scored.score, key := actionStackKey stack }
    (acc.1 ++ [cand], cache')
  else acc

/-- `Engine.ExpandAttackPaths`, threading the live graph through every
operation that touches it (snapshotting, seed counting, and the injected ROE
policy, which receives the live graph read-only). -/
def expandAttackPathsSt (e : Engine) (st : Option CampaignState) :
    Except String (List AttackPath) × Graph :=
  let cfg := normalizeAttackPathConfig e.attackPathConfig
  let roe := cfg.roePolicy.getD (fun _ _ _ => true)
  let classes := boundActionClasses e
  if classes.isEmpty then (.ok [], e.graph)
  else
    let idx := buildActionClassIndex classes
    let (seeded, g1) := seedNodeCountSt e.graph cfg.startNodeTypes
    if seeded = 0 then (.ok [], g1)
    else
      let currentPhase := phaseForState st
      let (baseSnapshot, g2) := snapshotFromGraphSt g1
      let rootAcc := (eligible idx baseSnapshot).foldl
        (attackRootStep cfg roe classes currentPhase baseSnapshot g2 st) ([], some [])
      let beam := pruneAttackBeam rootAcc.1 cfg.beamWidth
      let paths := attackLoop g2 st idx cfg roe classes currentPhase cfg.maxDepth.toNat
        beam [] [] rootAcc.2
      (.ok (goSort AttackPath.score (fun a b => decide (a.steps.length < b.steps.length)) paths),
       g2)

/-- `ExpandAttackPaths`, result component. -/
def expandAttackPaths (e : Engine) (st : Option CampaignState) :
    Except String (List AttackPath) :=
  (expandAttackPathsSt e st).1

/-! ### Campaign planner (`PlanCampaign`) -/

structure AttackStep where
  actionClassID : String
  statement : String
  confidence : ℚ
  phase : OperationPhase
deriving DecidableEq, Repr

structure Campaign where
  steps : List AttackStep
  score : ℚ
  risk : ℚ
  objective : NodeType
  confidence : ℚ
deriving DecidableEq, Repr

structure CampaignOptions where
  maxDepth : Int
  riskTolerance : ℚ
  confidenceThreshold : ℚ
  beamWidth : Int
  topN : Int
  objectiveBiasWeight : ℚ
  objectiveProximityScore : ℚ
deriving DecidableEq, Repr

def DefaultCampaignOptions : CampaignOptions :=
  { maxDepth := 5, riskTolerance := 2.0, confidenceThreshold := 0.55, beamWidth := 25,
    topN := 10, objectiveBiasWeight := 0.35, objectiveProximityScore := 0 }

/-- `normalizeCampaignOptions`: every non-positive option falls back to its
default. -/
def normalizeCampaignOptions (opts : CampaignOptions) : CampaignOptions :=
  let cfg := opts
  let defaults := DefaultCampaignOptions
  let cfg := if cfg.maxDepth ≤ 0 then { cfg with maxDepth := defaults.maxDepth } else cfg
  let cfg := if cfg.beamWidth ≤ 0 then { cfg with beamWidth := defaults.beamWidth } else cfg
  let cfg := if cfg.riskTolerance ≤ 0 then
    { cfg with riskTolerance := defaults.riskTolerance } else cfg
  let cfg := if cfg.confidenceThreshold ≤ 0 then
    { cfg with confidenceThreshold := defaults.confidenceThreshold } else cfg
  let cfg := if cfg.topN ≤ 0 then { cfg with topN := defaults.topN } else cfg
  let cfg := if cfg.objectiveBiasWeight ≤ 0 then
    { cfg with objectiveBiasWeight := defaults.objectiveBiasWeight } else cfg
  cfg

/-- `campaignCandidate`. -/
structure CampaignCandidate where
  graph : Snapshot
  actions : List ActionClass
  steps : List AttackStep
  score : ℚ
  risk : ℚ
  confidence : ℚ
  objectiveReached : Bool
  phaseProgress : List OperationPhase
  feasibility : ℚ
deriving DecidableEq, Repr

def campaignKey (c : Campaign) : String :=
  goFmtStrings (c.steps.map AttackStep.actionClassID) ++ "|" ++ c.objective

def candidatePathKey (c : CampaignCandidate) : String :=
  goFmtStrings (c.steps.map AttackStep.actionClassID)

/-- `pruneCampaignBeam`. -/
def pruneCampaignBeam (beam : List CampaignCandidate) (width : Int) : List CampaignCandidate :=
  let sorted := goSort CampaignCandidate.score
    (fun a b => strLtB (candidatePathKey a) (candidatePathKey b)) beam
  if (sorted.length : Int) > width then sorted.take width.toNat else sorted

/-- `objectiveDistance`: steps since the last objective-producing action
(scanning from the end), or the path length when none produces it. -/
def objectiveDistance (actions : List ActionClass) (objective : NodeType) : Nat :=
  if actions.isEmpty then 0
  else
    match actions.reverse.findIdx? (fun ac => producesNode ac.producesNodes objective) with
    | some j => j
    | none => actions.length

/-- `objectiveProximityScore` from `campaign.go`: `1` when the action produces
the objective; otherwise `1/(distance+1)` plus `0.5` for every required node
kind of the action's preconditions equal to the objective. -/
def objectiveProximityScore (distance : Nat) (action : ActionClass) (objective : NodeType) : ℚ :=
  if producesNode action.producesNodes objective then 1
  else
    let supporting := action.preconditions.foldl
      (fun s p => p.requiredNodeTypes.foldl
        (fun s' req => if req = objective then s' + 0.5 else s') s) 0
    1 / ((distance : ℚ) + 1) + supporting

/-- `attackStepForAction` (the index argument is unused by the source too). -/
def attackStepForAction (ac : ActionClass) (idx : Nat) : AttackStep :=
  { actionClassID := ac.id
    statement := "Action class " ++ ac.name ++ " is feasible"
    confidence := 0.5 + ac.confidenceBoost
    phase := ac.phase }

/-- `hypothesesFromAttackSteps`. -/
def hypothesesFromAttackSteps (steps : List AttackStep) : List Hypothesis :=
  go 0 steps
where
  go : Nat → List AttackStep → List Hypothesis
    | _, [] => []
    | i, step :: rest =>
        { id := "campaign-hyp-" ++ step.actionClassID ++ "-" ++ toString (i + 1)
          actionClassID := step.actionClassID
          statement := step.statement
          supportingNodeIDs := []
          derivedFrom := []
          confidence := step.confidence } :: go (i + 1) rest

/-- `averageCampaignConfidence`. -/
def averageCampaignConfidence (steps : List AttackStep) : ℚ :=
  if steps.isEmpty then 0
  else (steps.map AttackStep.confidence).foldl (· + ·) 0 / (steps.length : ℚ)

/-- `campaignPhaseAllowed`. -/
def campaignPhaseAllowed (root : OperationPhase) (progress : List OperationPhase)
    (candidate : OperationPhase) : Bool :=
  match progress.getLast? with
  | none => phaseAllowed root candidate
  | some last => phaseAllowed last candidate

/-- `nodeTypeIf`. -/
def nodeTypeIf (ok : Bool) (objective : NodeType) : NodeType :=
  if ok then objective else ""

/-- `CampaignProjectionState`. -/
structure CampaignProjectionState where
  graph : Snapshot
  phaseProgress : List OperationPhase

/-- `projectCampaignState`: clone the snapshot, extend the phase progress,
re-check preconditions and apply the action. -/
def projectCampaignState (base : CampaignProjectionState) (ac : ActionClass) :
    Except String CampaignProjectionState :=
  let next : CampaignProjectionState :=
    { graph := snapshotClone base.graph, phaseProgress := base.phaseProgress ++ [ac.phase] }
  if ¬ (matchSnapshotPatterns next.graph ac.preconditions) then
    .error ("preconditions do not match")
  else
    .ok { next with graph := applyAction next.graph ac }

/-- The Go literal `1e-9` used in the feasibility-regression guard. -/
def epsFeas : ℚ := 1 / 1000000000

/-- `projectCampaignCandidate`: returns the projected candidate (or `none` on
a pruning guard) plus the updated unlock cache. -/
def projectCampaignCandidate (candidate : CampaignCandidate) (action : ActionClass)
    (classes : List ActionClass) (objective : NodeType) (cfg : CampaignOptions)
    (cache : Cache) : Option CampaignCandidate × Cache :=
  match projectCampaignState
      { graph := candidate.graph, phaseProgress := candidate.phaseProgress } action with
  | .error _ => (none, cache)
  | .ok proj =>
    let actions := candidate.actions ++ [action]
    let risk := cumulativeRisk actions
    if risk > cfg.riskTolerance then (none, cache)
    else
      let steps := candidate.steps ++ [attackStepForAction action actions.length]
      let confidence := averageCampaignConfidence steps
      if confidence < cfg.confidenceThreshold then (none, cache)
      else
        let feasibility := averageFeasibility actions
        if candidate.steps.length > 0 ∧ feasibility + epsFeas < candidate.feasibility then
          (none, cache)
        else
          let reached := producesNode action.producesNodes objective
          let distance := objectiveDistance actions objective
          let proximity := objectiveProximityScore distance action objective
          let hypSteps := hypothesesFromAttackSteps steps
          let (scored, cache') := scorePathWithCache hypSteps actions classes
            (nodeTypeIf reached objective) DefaultAttackPathConfig cache
            (snapshotHash proj.graph)
          let score := scored.score + proximity * cfg.objectiveBiasWeight
          (some { graph := proj.graph, actions := actions, steps := steps, score := score,
                  risk := risk, confidence := confidence, objectiveReached := reached,
                  phaseProgress := proj.phaseProgress, feasibility := feasibility }, cache')

/-- Accumulator for one depth of the campaign beam loop. -/
structure CampAcc where
  nextBeam : List CampaignCandidate
  campaigns : List Campaign
  seen : List String
  cache : Cache

/-- One `(candidate, action)` step of the campaign beam loop: phase and
pattern guards, projection, and deduplicated campaign emission when the
objective is reached. -/
def campaignTryAction (classes : List ActionClass) (objective : NodeType)
    (cfg : CampaignOptions) (currentPhase : OperationPhase)
    (candidate : CampaignCandidate) (acc : CampAcc) (action : ActionClass) : CampAcc :=
  if ¬ (campaignPhaseAllowed currentPhase candidate.phaseProgress action.phase &&
      matchSnapshotPatterns candidate.graph action.preconditions) then acc
  else
    match projectCampaignCandidate candidate action classes objective cfg acc.cache with
    | (none, cache') => { acc with cache := cache' }
    | (some projected, cache') =>
      let nextBeam := acc.nextBeam ++ [projected]
      if projected.objectiveReached then
        let campaign : Campaign :=
          { steps := projected.steps, score := projected.score, risk := projected.risk,
            objective := objective, confidence := projected.confidence }
        let key := campaignKey campaign
        if key ∈ acc.seen then
          { nextBeam := nextBeam, campaigns := acc.campaigns, seen := acc.seen, cache := cache' }
        else
          { nextBeam := nextBeam, campaigns := acc.campaigns ++ [campaign],
            seen := acc.seen ++ [key], cache := cache' }
      else
        { nextBeam := nextBeam, campaigns := acc.campaigns, seen := acc.seen, cache := cache' }

/-- One beam candidate: try every eligible action. -/
def visitCampaignCandidate (idx : ActionClassIndex) (classes : List ActionClass)
    (objective : NodeType) (cfg : CampaignOptions) (currentPhase : OperationPhase)
    (acc : CampAcc) (candidate : CampaignCandidate) : CampAcc :=
  (eligible idx candidate.graph).foldl
    (campaignTryAction classes objective cfg currentPhase candidate) acc

/-- The depth loop of `PlanCampaign`. -/
def campaignLoop (idx : ActionClassIndex) (classes : List ActionClass) (objective : NodeType)
    (cfg : CampaignOptions) (currentPhase : OperationPhase) :
    Nat → List CampaignCandidate → List Campaign → List String → Cache → List Campaign
  | 0, _, campaigns, _, _ => campaigns
  | fuel + 1, beam, campaigns, seen, cache =>
    let beam1 := pruneCampaignBeam beam cfg.beamWidth
    let acc := beam1.foldl (visitCampaignCandidate idx classes objective cfg currentPhase)
      { nextBeam := [], campaigns := campaigns, seen := seen, cache := cache }
    let nextBeam := pruneCampaignBeam acc.nextBeam cfg.beamWidth
    if nextBeam.isEmpty then acc.campaigns
    else campaignLoop idx classes objective cfg currentPhase fuel
      nextBeam acc.campaigns acc.seen acc.cache

/-- `Engine.PlanCampaign`, threading the live graph through the one operation
that touches it (the initial snapshot). -/
def planCampaignSt (e : Engine) (objective : NodeType) (opts : CampaignOptions) :
    Except String (List Campaign) × Graph :=
  if objective = "" then (.error ("objective is required"), e.graph)
  else
    let cfg := normalizeCampaignOptions opts
    let classes := sortByStrKey ActionClass.id (boundActionClasses e)
    if classes.isEmpty then (.ok [], e.graph)
    else
      let idx := buildActionClassIndex classes
      let (snap0, g1) := snapshotFromGraphSt e.graph
      let beam0 : List CampaignCandidate :=
        [{ graph := snap0, actions := [], steps := [], score := 0, risk := 0, confidence := 0,
           objectiveReached := false, phaseProgress := [], feasibility := 0 }]
      let currentPhase := phaseForState e.state
      let campaigns := campaignLoop idx classes objective cfg currentPhase cfg.maxDepth.toNat
        beam0 [] [] (some [])
      let sorted := goSort Campaign.score
        (fun a b => strLtB (campaignKey a) (campaignKey b)) campaigns
      let final := if (sorted.length : Int) > cfg.topN then sorted.take cfg.topN.toNat
        else sorted
      (.ok final, g1)

/-- `PlanCampaign`, result component. -/
def planCampaign (e : Engine) (objective : NodeType) (opts : CampaignOptions) :
    Except String (List Campaign) :=
  (planCampaignSt e objective opts).1

/-! ### Exposure tracker (`core/exposure/exposure.go`) -/

/-- Go `uint64` modulus. -/
def U64MOD : Nat := 2 ^ 64

/-- `exposure.Tracker` (scores are `uint64`). -/
structure Tracker where
  maxScore : Nat
  score : Nat
  halted : Bool
deriving DecidableEq, Repr

/-- `exposure.New`: requires `maxScore > 0`. -/
def trackerNew (maxScore : Nat) : Except String Tracker :=
  if maxScore = 0 then .error ("exposure tracker requires maxScore > 0")
  else .ok { maxScore := maxScore, score := 0, halted := false }

/-- `Tracker.Add`: rejects a zero delta and any addition after a halt;
otherwise adds with Go `uint64` wrap-around and latches `halted` when the
(wrapped) score reaches `maxScore`. -/
def trackerAdd (t : Tracker) (delta : Nat) : Except String Tracker :=
  if delta = 0 then .error ("exposure delta must be > 0")
  else if t.halted then .error ("exposure already exceeded; execution halted")
  else
    let score := (t.score + delta) % U64MOD
    .ok { t with score := score, halted := if score ≥ t.maxScore then true else t.halted }

/-- Run a sequence of `Add` calls, keeping the tracker unchanged whenever a
call errors (exactly the Go behaviour: a rejected `Add` mutates nothing). -/
def trackerAddSeq (t : Tracker) (deltas : List Nat) : Tracker :=
  deltas.foldl (fun t' d => match trackerAdd t' d with
    | .ok t'' => t''
    | .error _ => t') t

/-! ### Evidence artifacts (`core/evidence`) -/

/-- The canonical signed view of an artifact: every field except `Integrity`.
The Go code serialises this view with `json.Marshal` and hashes it with
SHA-256; the composite `hex ∘ SHA-256 ∘ Marshal` map is modelled below as an
abstract function out of this view. -/
structure SignedView where
  artifactID : String
  campaignID : String
  techniqueID : String
  target : String
  executedAt : Int
  success : Bool
  output : String
  exposureScore : Nat
deriving DecidableEq, Repr

structure Artifact where
  artifactID : String
  campaignID : String
  techniqueID : String
  target : String
  executedAt : Int
  success : Bool
  output : String
  exposureScore : Nat
  integrity : String
deriving DecidableEq, Repr

/-- `canonicalPayload`: the signed view (all fields except `Integrity`). -/
def canonicalPayload (a : Artifact) : SignedView :=
  { artifactID := a.artifactID, campaignID := a.campaignID, techniqueID := a.techniqueID,
    target := a.target, executedAt := a.executedAt, success := a.success,
    output := a.output, exposureScore := a.exposureScore }

/-- `Artifact.Validate` (`executedAt = 0` is Go's zero time). -/
def artifactValidate (a : Artifact) : Option String :=
  if a.artifactID = "" then some ("artifact missing artifact_id")
  else if a.campaignID = "" then some ("artifact missing campaign_id")
  else if a.techniqueID = "" then some ("artifact missing technique_id")
  else if a.target = "" then some ("artifact missing target")
  else if a.executedAt = 0 then some ("artifact missing execution timestamp")
  else none

/-- `Artifact.Sign`, parameterised by the hash map `hashFn` standing for
`hex ∘ SHA-256 ∘ json.Marshal` on the canonical view. -/
def artifactSign (hashFn : SignedView → String) (a : Artifact) : Except String Artifact :=
  match artifactValidate a with
  | some e => .error e
  | none =>
    if a.integrity ≠ "" then .error ("artifact already signed")
    else .ok { a with integrity := hashFn (canonicalPayload a) }

/-- `Artifact.Verify`: recompute the hash of the canonical view and compare
with the stored `Integrity`. -/
def artifactVerify (hashFn : SignedView → String) (a : Artifact) : Except String Bool :=
  if a.integrity = "" then .error ("artifact not signed")
  else .ok (a.integrity = hashFn (canonicalPayload a) : Bool)

/-! ### Intent contract and ROE (`core/intent`, `core/roe`) -/

/-- The intent contract fields read by `roe.Enforce` and `executor.Engine`
(times are modelled as integers, `0` = Go's zero time). -/
structure Contract where
  campaignID : String
  objective : String
  allowedTechniques : List String
  targets : List String
  notBefore : Int
  notAfter : Int
deriving DecidableEq, Repr

/-- The static v0.x compiled ROE allow-list. -/
def roeAllowedTechniques : List String := ["T1595"]

/-- `roe.Enforce` (`none` = pass); `now` is the evaluation time. -/
def roeEnforce (contract : Contract) (techniqueID target : String) (now : Int) :
    Option String :=
  if techniqueID = "" then some ("ROE violation: empty technique ID")
  else if target = "" then some ("ROE violation: empty target")
  else if ¬ (techniqueID ∈ roeAllowedTechniques) then
    some ("ROE violation: technique not permitted by policy")
  else if ¬ (techniqueID ∈ contract.allowedTechniques) then
    some ("ROE violation: technique not declared in intent")
  else if ¬ (target ∈ contract.targets) then
    some ("ROE violation: target not declared in intent")
  else if now < contract.notBefore ∨ contract.notAfter < now then
    some ("ROE violation: execution outside intent window")
  else none

/-! ### Planner decision types (`reasoning` interface) -/

structure RankedAction where
  techniqueID : String
  actionClassID : String
  target : String
  score : ℚ
  reason : String
deriving DecidableEq, Repr

structure Decision where
  selected : RankedAction
  ranked : List RankedAction
deriving DecidableEq, Repr

structure EvidenceEvent where
  techniqueID : String
  target : String
  success : Bool
  output : String
deriving DecidableEq, Repr

def eventOfArtifact (a : Artifact) : EvidenceEvent :=
  { techniqueID := a.techniqueID, target := a.target, success := a.success, output := a.output }

/-- `Engine.IngestEvidence` (reasoning side): rejects an event with an empty
technique or target, otherwise upserts an evidence node keyed by the current
time and technique. -/
def ingestEvidence (g : Graph) (event : EvidenceEvent) (nowNano : Int) :
    Except String Graph :=
  if event.techniqueID = "" ∨ event.target = "" then
    .error ("evidence event missing technique or target")
  else
    .ok (upsertNode g
      { id := "ev-" ++ toString nowNano ++ "-" ++ event.techniqueID
        type := NodeTypeEvidence
        label := event.techniqueID ++ "@" ++ event.target
        metadata := [("success", toString event.success), ("target", event.target)] })

/-- `DefaultActionBinder.ApplyAction`: insert the evidence node, one node per
produced kind, and one edge per produced edge kind from the evidence node to
the first produced node. -/
def applyActionToGraph (g : Graph) (ac : ActionClass) (event : EvidenceEvent)
    (nowNano : Int) : Except String Graph :=
  let evidenceNodeID := "ev-" ++ toString nowNano ++ "-" ++ event.techniqueID
  let g1 := upsertNode g
    { id := evidenceNodeID, type := NodeTypeEvidence,
      label := event.techniqueID ++ "@" ++ event.target, metadata := [] }
  let step := ac.producesNodes.foldl
    (fun (acc : Graph × List String × Nat) nodeType =>
      let (g', producedIDs, i) := acc
      let nodeID := "ac-" ++ ac.id ++ "-" ++ toString i ++ "-" ++ toString nowNano
      let node : Node :=
        { id := nodeID, type := nodeType,
          label := ac.id ++ " produced " ++ nodeType, metadata := [] }
      (upsertNode g' node, producedIDs ++ [nodeID], i + 1))
    (g1, [], 0)
  let g2 := step.1
  let producedIDs := step.2.1
  if producedIDs.isEmpty then .ok g2
  else
    match producedIDs.head? with
    | none => .ok g2
    | some firstID =>
        ac.producesEdges.foldl
          (fun acc edgeType =>
            match acc with
            | .error e => .error e
            | .ok g' => addEdge g'
                { src := evidenceNodeID, dst := firstID, type := edgeType, weight := 1 })
          (.ok g2)

/-! ### `Engine.RunCycle` (reasoning cycle orchestrator, tail after planning) -/

/-- The cycle configuration fields `RunCycle` checks (the executor itself is
abstracted by the `execResult` argument below, since `RunCycle` only consumes
its return value). -/
structure CycleConfig where
  target : String
  hasExecutor : Bool
deriving DecidableEq, Repr

/-- The reasoning-engine state `RunCycle` touches. -/
structure REngine where
  graph : Graph
  binderClasses : List (String × ActionClass)

structure RunCycleResult where
  decision : Option Decision
  error : Option String
  ingested : List EvidenceEvent
  graph : Graph

/-- `Engine.RunCycle`, with the outcome of `PlanNextAction` (`planRes`) and of
`cfg.Executor.Run` (`execResult`, an artifact-or-nil plus error-or-nil pair)
as inputs: validates the cycle config, runs the planner, invokes the
executor, ingests any returned artifact (through the action binder when the
selected action class resolves, else through `IngestEvidence`, whose error is
discarded), and returns the decision together with the executor error. -/
def runCycle (e : REngine) (cfg : CycleConfig) (planRes : Except String Decision)
    (execResult : Option Artifact × Option String) (nowNano : Int) : RunCycleResult :=
  if cfg.target = "" then
    { decision := none, error := some ("run cycle target is required"), ingested := [],
      graph := e.graph }
  else if ¬ cfg.hasExecutor then
    { decision := none, error := some ("run cycle executor is required"), ingested := [],
      graph := e.graph }
  else
    match planRes with
    | .error err =>
        { decision := none, error := some err, ingested := [], graph := e.graph }
    | .ok decision =>
        let (artifactOpt, execErr) := execResult
        let (ingested, g') :=
          match artifactOpt with
          | none => ([], e.graph)
          | some artifact =>
              let event := eventOfArtifact artifact
              let applied : Option Graph :=
                if decision.selected.actionClassID ≠ "" then
                  match assocGet e.binderClasses decision.selected.actionClassID with
                  | some ac =>
                      match applyActionToGraph e.graph ac event nowNano with
                      | .ok g2 => some g2
                      | .error _ => none
                  | none => none
                else none
              match applied with
              | some g2 => ([event], g2)
              | none =>
                  match ingestEvidence e.graph event nowNano with
                  | .ok g2 => ([event], g2)
                  | .error _ => ([], e.graph)
        { decision := some decision, error := execErr, ingested := ingested, graph := g' }

/-! ### `executor.Engine.Run` -/

/-- `techniques.Resolve` output observed by the executor. -/
structure Resolution where
  allowedActionClasses : List String
deriving DecidableEq, Repr

/-- The executor engine: validated intent contract, campaign state and
exposure tracker. -/
structure ExecEngine where
  contract : Contract
  campaign : CampaignState
  exposure : Tracker

structure ExecRunResult where
  artifact : Option Artifact
  error : Option String
  campaign : CampaignState
  exposure : Tracker
  ingested : List EvidenceEvent

/-- `state.Campaign.Halt`, with the error discarded as at the call sites
(`_ = e.campaign.Halt(...)`). -/
def campaignHaltQuiet (c : CampaignState) : CampaignState :=
  if c.status = .completed then c
  else if c.status = .halted then c
  else { c with status := .halted }

/-- `state.Campaign.RecordExecution`, error discarded
(`_ = e.campaign.RecordExecution()`). -/
def recordExecutionQuiet (c : CampaignState) : CampaignState :=
  if c.status ≠ .running then c else { c with executions := c.executions + 1 }

/-- The fixed per-execution exposure delta of v0.x. -/
def executionExposure : Nat := 10

/-- `executor.Engine.Run`.  External collaborators appear as value inputs:
`planRes` is `reasoner.PlanNextAction`'s outcome, `techniqueFound` is whether
`techniques.Get` succeeds, `(resolution, resolveErr)` is `technique.Resolve`'s
outcome, `uuid` is the generated artifact id, `startedAt`/`nowRoe` are the
sampled clocks, and `hashFn` is the evidence hash (the AI advisory call is
ignored by the source and therefore omitted).  The result carries the mutated
campaign state, exposure tracker and the evidence events ingested into the
reasoner. -/
def engineRun (e : ExecEngine) (ctxCancelled : Bool) (techniqueID target : String)
    (planRes : Except String Decision) (techniqueFound : Bool) (resolution : Resolution)
    (resolveErr : Option String) (uuid : String) (startedAt : Int) (nowRoe : Int)
    (hashFn : SignedView → String) : ExecRunResult :=
  if ctxCancelled then
    { artifact := none, error := some ("context cancelled"), campaign := e.campaign,
      exposure := e.exposure, ingested := [] }
  else if e.campaign.status = .halted ∨ e.campaign.status = .completed then
    { artifact := none, error := some ("execution denied: campaign is halted or completed"),
      campaign := e.campaign, exposure := e.exposure, ingested := [] }
  else
    let campaign1 := if e.campaign.status = .initialized then
      { e.campaign with status := CStatus.running } else e.campaign
    if e.exposure.halted then
      { artifact := none, error := some ("execution halted due to exposure"),
        campaign := campaignHaltQuiet campaign1, exposure := e.exposure, ingested := [] }
    else
      match roeEnforce e.contract techniqueID target nowRoe with
      | some err =>
          { artifact := none, error := some err, campaign := campaign1,
            exposure := e.exposure, ingested := [] }
      | none =>
        match planRes with
        | .error err =>
            { artifact := none, error := some err, campaign := campaign1,
              exposure := e.exposure, ingested := [] }
        | .ok decision =>
          if ¬ techniqueFound then
            { artifact := none, error := some ("technique not registered"),
              campaign := campaign1, exposure := e.exposure, ingested := [] }
          else
            let campaign2 := recordExecutionQuiet campaign1
            let execErr : Option String :=
              match resolveErr with
              | some er => some er
              | none =>
                  if resolution.allowedActionClasses.isEmpty then
                    some ("no admissible action classes")
                  else none
            let exposure1 := match trackerAdd e.exposure executionExposure with
              | .ok t => t
              | .error _ => e.exposure
            let campaign3 := if exposure1.halted then campaignHaltQuiet campaign2
              else campaign2
            let artifact0 : Artifact :=
              { artifactID := uuid, campaignID := e.contract.campaignID,
                techniqueID := decision.selected.techniqueID, target := target,
                executedAt := startedAt, success := execErr.isNone, output := "",
                exposureScore := exposure1.score, integrity := "" }
            match artifactSign hashFn artifact0 with
            | .error err =>
                { artifact := none, error := some ("evidence signing failed: " ++ err),
                  campaign := campaign3, exposure := exposure1, ingested := [] }
            | .ok artifact =>
              let event := eventOfArtifact artifact
              let ingested := if event.techniqueID = "" ∨ event.target = "" then []
                else [event]
              if exposure1.halted then
                { artifact := some artifact,
                  error := some ("campaign halted due to exposure"),
                  campaign := campaign3, exposure := exposure1, ingested := ingested }
              else
                match execErr with
                | some er =>
                    { artifact := some artifact, error := some er, campaign := campaign3,
                      exposure := exposure1, ingested := ingested }
                | none =>
                    { artifact := some artifact, error := none, campaign := campaign3,
                      exposure := exposure1, ingested := ingested }

/-! ### Concrete inputs used by the claim counterexamples and witnesses -/

/-- Concrete inputs for the claim C10 witness. -/
def engC10 : Engine :=
  { graph := { nodes := [], edges := [] }, state := none, classes := [],
    attackPathConfig := DefaultAttackPathConfig }

def optsC10 : CampaignOptions :=
  { maxDepth := 0, riskTolerance := 0, confidenceThreshold := 0, beamWidth := 0,
    topN := 0, objectiveBiasWeight := 0, objectiveProximityScore := 0 }

/-- The number of required-node-kind entries among the action's preconditions
that equal the objective kind (the claim's "preconditions that require the
objective"). -/
def c2SupportCount (action : ActionClass) (objective : NodeType) : Nat :=
  (action.preconditions.map (fun p => p.requiredNodeTypes.count objective)).sum

/-- Concrete input refuting claim C2 as stated. -/
def acC2 : ActionClass :=
  { id := "AC-2x", name := "AC-2x", phase := PhaseRecon,
    preconditions := [{ requiredNodeTypes := ["goal"], requiredEdges := [] }],
    producesNodes := [], producesEdges := [],
    riskWeight := 0, impactWeight := 0, confidenceBoost := 0 }

/-- The claim's reading of the proximity: three mutually exclusive cases. -/
def c2ClaimedProximity (distance : Nat) (action : ActionClass) (objective : NodeType) : ℚ :=
  if producesNode action.producesNodes objective then 1
  else if 0 < c2SupportCount action objective then (c2SupportCount action objective : ℚ) * 0.5
  else 1 / ((distance : ℚ) + 1)

/-- Concrete inputs for the claim C2 witness. -/
def candW0 : CampaignCandidate :=
  { graph := snapshotFromGraph { nodes := [], edges := [] }, actions := [], steps := [],
    score := 0, risk := 0, confidence := 0, objectiveReached := false, phaseProgress := [],
    feasibility := 0 }

def acW : ActionClass :=
  { id := "AC-1", name := "AC-1", phase := PhaseRecon, preconditions := [],
    producesNodes := [NodeTypeAttackPath], producesEdges := [],
    riskWeight := 0.1, impactWeight := 1.0, confidenceBoost := 0.2 }

def prW : Option CampaignCandidate × Cache :=
  projectCampaignCandidate candW0 acW [acW] NodeTypeAttackPath DefaultCampaignOptions (some [])

def projW : CampaignCandidate := prW.1.getD candW0

/-- The claim's score formula, with `avg_conf` the mean over all step
confidences. -/
def c7ClaimedScore (steps : List Hypothesis) (pathClasses allClasses : List ActionClass)
    (objective : NodeType) (cfg : AttackPathConfig) (cache : Cache) (graphHash : String) : ℚ :=
  let avgConf : ℚ :=
    if steps.isEmpty then 0
    else (steps.map Hypothesis.confidence).foldl (· + ·) 0 / (steps.length : ℚ)
  let risk := cumulativeRisk pathClasses
  let base := avgConf * 0.8 + averageFeasibility pathClasses * 1.1 +
    0.15 * (unlockedActionCount pathClasses allClasses cache graphHash).1 -
    (if risk > 2.0 then risk * risk else 0.4 * risk) -
    0.25 * (steps.length : ℚ) + objectiveProximity pathClasses objective cfg
  if objective ≠ "" then base * 1.35 else base

/-- Concrete input refuting claim C7 as stated. -/
def hypC7 : Hypothesis :=
  { id := "h", actionClassID := "x", statement := "", supportingNodeIDs := [],
    derivedFrom := [], confidence := 1 }

def acC7 : ActionClass :=
  { id := "x", name := "x", phase := PhaseRecon, preconditions := [], producesNodes := [],
    producesEdges := [], riskWeight := 0, impactWeight := 0, confidenceBoost := 0 }

/-- A single recon action that produces the `attack_path` node kind. -/
def acC1 : ActionClass :=
  { id := "AC-1", name := "AC-1", phase := PhaseRecon, preconditions := [],
    producesNodes := [NodeTypeAttackPath], producesEdges := [],
    riskWeight := 0.1, impactWeight := 1.0, confidenceBoost := 0.2 }

def engC1 : Engine :=
  { graph := { nodes := [], edges := [] }, state := none, classes := [acC1],
    attackPathConfig := DefaultAttackPathConfig }

/-- All-zero options: every field is normalised to its default. -/
def optsC1 : CampaignOptions :=
  { maxDepth := 2, riskTolerance := 0, confidenceThreshold := 0, beamWidth := 0,
    topN := 0, objectiveBiasWeight := 0, objectiveProximityScore := 0 }

/-- A two-step attack-path search on one evidence node, with the 0.5-risk
action `acD` producing the objective kind and a zero risk threshold. -/
def acD : ActionClass :=
  { id := "D", name := "D", phase := PhaseRecon, preconditions := [],
    producesNodes := [NodeTypeTechnique], producesEdges := [],
    riskWeight := 0.5, impactWeight := 1.0, confidenceBoost := 0.1 }

def engC5 : Engine :=
  { graph := { nodes := [("ev-1",
      { id := "ev-1", type := NodeTypeEvidence, label := "", metadata := [] })], edges := [] }
    state := none
    classes := [acD]
    attackPathConfig :=
      { maxDepth := 2, beamWidth := 5, riskThreshold := 0, depthPenalty := 0.1,
        confidenceWeight := 0.25, startNodeTypes := [NodeTypeEvidence],
        objectiveNodeTypes := [NodeTypeTechnique], roePolicy := some (fun _ _ _ => true) } }

/-- The witness engine: `engC5` with a positive risk threshold. -/
def engAW : Engine :=
  { engC5 with attackPathConfig := { engC5.attackPathConfig with riskThreshold := 2.0 } }

def psW : List AttackPath := (expandAttackPaths engAW none).toOption.getD []

def csW : List Campaign := (planCampaign engAW "technique" optsC1).toOption.getD []

/-- Go's byte-wise `<` lifted lexicographically to lists of strings (what the
claim's "lexicographic on the action-class id list" tie-break denotes). -/
def idListLexLtB : List String → List String → Bool
  | [], [] => false
  | [], _ :: _ => true
  | _ :: _, [] => false
  | a :: as, b :: bs =>
      if strLtB a b then true else if strLtB b a then false else idListLexLtB as bs

def campaignStepIds (c : Campaign) : List String := c.steps.map AttackStep.actionClassID

/-- The result order claimed by the spec: score descending, ties by shorter
path first, then lexicographically on the action-class id list. -/
def claimedCampaignOrder (a b : Campaign) : Prop :=
  b.score < a.score ∨ (a.score = b.score ∧
    (a.steps.length < b.steps.length ∨ (a.steps.length = b.steps.length ∧
      (campaignStepIds a = campaignStepIds b ∨
        idListLexLtB (campaignStepIds a) (campaignStepIds b) = true))))

instance (a b : Campaign) : Decidable (claimedCampaignOrder a b) := by
  unfold claimedCampaignOrder; infer_instance

def acA : ActionClass := { acC1 with id := "A", name := "A" }

def acAB : ActionClass := { acC1 with id := "AB", name := "AB" }

def engC3 : Engine :=
  { graph := { nodes := [], edges := [] }, state := none, classes := [acA, acAB],
    attackPathConfig := DefaultAttackPathConfig }

def optsC3 : CampaignOptions := { optsC1 with maxDepth := 1 }

def reC8 : REngine := { graph := { nodes := [], edges := [] }, binderClasses := [] }

def cfgC8 : CycleConfig := { target := "t1", hasExecutor := true }

def selC8 : RankedAction :=
  { techniqueID := "T1595", actionClassID := "", target := "t1", score := 0, reason := "" }

def decC8 : Decision := { selected := selC8, ranked := [] }

def artC8 : Artifact :=
  { artifactID := "a1", campaignID := "c1", techniqueID := "T1595", target := "t1",
    executedAt := 5, success := true, output := "", exposureScore := 0, integrity := "h" }

def contractC8 : Contract :=
  { campaignID := "c1", objective := "obj", allowedTechniques := ["T1595"],
    targets := ["t1"], notBefore := 0, notAfter := 10 }

def campC8 : CampaignState :=
  { campaignID := "c1", status := CStatus.running, executions := 0 }

def trC8 : Tracker := { maxScore := 100, score := 0, halted := false }

def eeC8 : ExecEngine := { contract := contractC8, campaign := campC8, exposure := trC8 }

def hashC8 : SignedView → String := fun _ => "H"

/-! ### Order lemmas for the embedded comparators -/
/-- Fold invariant preservation. -/
theorem foldl_inv {α β : Type} {P : β → Prop} (f : β → α → β) (l : List α) (b : β)
    (hb : P b) (hf : ∀ b a, P b → a ∈ l → P (f b a)) : P (l.foldl f b) := by
  induction l generalizing b with
  | nil => exact hb
  | cons x xs ih =>
      exact ih (f b x) (hf b x hb (List.mem_cons_self x xs))
        (fun b' a hb' ha => hf b' a hb' (List.mem_cons_of_mem x ha))

theorem natListLtB_asymm : ∀ a b : List Nat, natListLtB a b = true → natListLtB b a = false := by
  intro a
  induction a with
  | nil =>
      intro b h
      cases b with
      | nil => simp [natListLtB] at h
      | cons y ys => simp [natListLtB]
  | cons x xs ih =>
      intro b h
      cases b with
      | nil => simp [natListLtB] at h
      | cons y ys =>
          by_cases hxy : x < y
          · have h1 : ¬ y < x := by omega
            have h2 : ¬ y = x := by omega
            simp [natListLtB, h1, h2]
          · by_cases hxy2 : x = y
            · subst hxy2
              have hr : natListLtB xs ys = true := by
                simpa [natListLtB, hxy] using h
              simp [natListLtB, ih ys hr]
            · exfalso
              simp [natListLtB, hxy, hxy2] at h

theorem natListLtB_negtrans :
    ∀ a b c : List Nat, natListLtB b a = false → natListLtB c b = false →
      natListLtB c a = false := by
  intro a
  induction a with
  | nil =>
      intro b c _ _
      cases c with
      | nil => rfl
      | cons z zs => rfl
  | cons x xs ih =>
      intro b c h1 h2
      cases b with
      | nil => simp [natListLtB] at h1
      | cons y ys =>
          cases c with
          | nil => simp [natListLtB] at h2
          | cons z zs =>
              have hyx : ¬ y < x := by
                intro hlt
                simp [natListLtB, hlt] at h1
              have hzy : ¬ z < y := by
                intro hlt
                simp [natListLtB, hlt] at h2
              have hzx : ¬ z < x := by omega
              by_cases hze : z = x
              · subst hze
                have hye : y = z := by omega
                subst hye
                have hr1 : natListLtB ys xs = false := by
                  simpa [natListLtB, hyx] using h1
                have hr2 : natListLtB zs ys = false := by
                  simpa [natListLtB, hzy] using h2
                simp [natListLtB, hzx, ih ys zs hr1 hr2]
              · simp [natListLtB, hzx, hze]

theorem strLtB_asymm (a b : String) : strLtB a b = true → strLtB b a = false :=
  natListLtB_asymm _ _

theorem strLtB_negtrans (a b c : String) :
    strLtB b a = false → strLtB c b = false → strLtB c a = false :=
  natListLtB_negtrans _ _ _

/-- Normal form of the `goLessB` comparator's negation. -/
theorem goLessB_eq_false_iff {α : Type} (s : α → ℚ) (kLt : α → α → Bool) (a b : α) :
    goLessB s kLt a b = false ↔ (s a < s b ∨ (s a = s b ∧ kLt a b = false)) := by
  unfold goLessB
  by_cases h : s a = s b
  · rw [if_pos h]
    constructor
    · intro hk
      exact Or.inr ⟨h, hk⟩
    · rintro (hlt | ⟨_, hk⟩)
      · exact absurd hlt (by simp [h])
      · exact hk
  · rw [if_neg h, decide_eq_false_iff_not]
    constructor
    · intro hn
      exact Or.inl (lt_of_le_of_ne (le_of_not_lt hn) h)
    · rintro (hlt | ⟨he, _⟩)
      · exact not_lt_of_gt hlt
      · exact absurd he h

theorem goSortLe_iff {α : Type} (s : α → ℚ) (kLt : α → α → Bool) (a b : α) :
    goSortLe s kLt a b ↔ (s b < s a ∨ (s b = s a ∧ kLt b a = false)) := by
  unfold goSortLe
  exact goLessB_eq_false_iff s kLt b a

/-- `goSort` output is pairwise ordered by the comparator, provided the
tie-break is asymmetric and negatively transitive (true of the string-key and
length tie-breaks used by the planners). -/
theorem goSort_pairwise {α : Type} (s : α → ℚ) (kLt : α → α → Bool)
    (hasymm : ∀ a b, kLt a b = true → kLt b a = false)
    (hneg : ∀ a b c, kLt b a = false → kLt c b = false → kLt c a = false)
    (l : List α) : (goSort s kLt l).Pairwise (goSortLe s kLt) := by
  haveI : IsTotal α (goSortLe s kLt) := by
    constructor
    intro a b
    unfold goSortLe
    by_cases h : goLessB s kLt b a = false
    · exact Or.inl h
    · right
      have hba : goLessB s kLt b a = true := by
        cases hb : goLessB s kLt b a with
        | false => exact absurd hb h
        | true => rfl
      rw [goLessB_eq_false_iff]
      unfold goLessB at hba
      by_cases he : s b = s a
      · rw [if_pos he] at hba
        exact Or.inr ⟨he.symm, hasymm b a hba⟩
      · rw [if_neg he] at hba
        exact Or.inl (of_decide_eq_true hba)
  haveI : IsTrans α (goSortLe s kLt) := by
    constructor
    intro a b c hab hbc
    rw [goSortLe_iff] at hab hbc ⊢
    rcases hab with h1 | ⟨e1, k1⟩
    · rcases hbc with h2 | ⟨e2, k2⟩
      · exact Or.inl (lt_trans h2 h1)
      · exact Or.inl (e2 ▸ h1)
    · rcases hbc with h2 | ⟨e2, k2⟩
      · exact Or.inl (e1 ▸ h2)
      · exact Or.inr ⟨e2.trans e1, hneg a b c k1 k2⟩
  exact List.sorted_insertionSort (goSortLe s kLt) l

theorem goSort_perm {α : Type} (s : α → ℚ) (kLt : α → α → Bool) (l : List α) :
    (goSort s kLt l).Perm l :=
  List.perm_insertionSort _ l

theorem mem_goSort {α : Type} (s : α → ℚ) (kLt : α → α → Bool) {x : α} {l : List α} :
    x ∈ goSort s kLt l ↔ x ∈ l :=
  (goSort_perm s kLt l).mem_iff

/-- Tie-break hypotheses for a string key. -/
theorem strKeyLt_asymm {α : Type} (k : α → String) :
    ∀ a b : α, strLtB (k a) (k b) = true → strLtB (k b) (k a) = false :=
  fun a b h => strLtB_asymm (k a) (k b) h

theorem strKeyLt_negtrans {α : Type} (k : α → String) :
    ∀ a b c : α, strLtB (k b) (k a) = false → strLtB (k c) (k b) = false →
      strLtB (k c) (k a) = false :=
  fun a b c h1 h2 => strLtB_negtrans (k a) (k b) (k c) h1 h2

/-- Tie-break hypotheses for a natural-number key. -/
theorem natKeyLt_asymm {α : Type} (f : α → Nat) :
    ∀ a b : α, decide (f a < f b) = true → decide (f b < f a) = false := by
  intro a b h
  simp only [decide_eq_true_eq] at h
  simp only [decide_eq_false_iff_not]
  exact Nat.lt_asymm h

theorem natKeyLt_negtrans {α : Type} (f : α → Nat) :
    ∀ a b c : α, decide (f b < f a) = false → decide (f c < f b) = false →
      decide (f c < f a) = false := by
  intro a b c h1 h2
  simp only [decide_eq_false_iff_not] at h1 h2 ⊢
  exact fun hca => hca.not_le (Nat.le_trans (Nat.le_of_not_lt h1) (Nat.le_of_not_lt h2)) |>.elim

/-- Membership in a pruned attack beam implies membership in the input. -/
theorem mem_pruneAttackBeam {c : AttackCandidate} {beam : List AttackCandidate} {w : Int} :
    c ∈ pruneAttackBeam beam w → c ∈ beam := by
  intro h
  simp only [pruneAttackBeam] at h
  split at h
  · exact mem_goSort _ _ |>.mp (List.mem_of_mem_take h)
  · exact mem_goSort _ _ |>.mp h

/-- Membership in a pruned campaign beam implies membership in the input. -/
theorem mem_pruneCampaignBeam {c : CampaignCandidate} {beam : List CampaignCandidate}
    {w : Int} : c ∈ pruneCampaignBeam beam w → c ∈ beam := by
  intro h
  simp only [pruneCampaignBeam] at h
  split at h
  · exact mem_goSort _ _ |>.mp (List.mem_of_mem_take h)
  · exact mem_goSort _ _ |>.mp h

/-! ### Claim C6: planning never mutates the live graph -/

/-- Claim C6: `ExpandAttackPaths` and `PlanCampaign` never mutate the live
graph: provided the injected ROE policy does not itself mutate the graph
(which the embedding enforces by taking the policy as a pure predicate over
the live graph), the graph's node map and edge list are identical before and
after either call, for every engine, state, objective and options; all search
expansion is performed on counting snapshots. -/
theorem c6_planning_preserves_graph :
    ∀ (e : Engine) (st : Option CampaignState) (objective : NodeType)
      (opts : CampaignOptions),
      (expandAttackPathsSt e st).2 = e.graph ∧ (planCampaignSt e objective opts).2 = e.graph := by
  intro e st objective opts
  constructor
  · unfold expandAttackPathsSt
    dsimp only [seedNodeCountSt, snapshotFromGraphSt]
    split
    · rfl
    · split
      · rfl
      · rfl
  · unfold planCampaignSt
    dsimp only [snapshotFromGraphSt]
    split
    · rfl
    · split
      · rfl
      · rfl

/-! ### Claim C10: option normalization in `PlanCampaign` -/

/-- Normal form of `normalizeCampaignOptions`: each field independently falls
back to its default when non-positive; `objectiveProximityScore` is passed
through untouched. -/
theorem normalizeCampaignOptions_eq (opts : CampaignOptions) :
    normalizeCampaignOptions opts =
      { maxDepth := if opts.maxDepth ≤ 0 then 5 else opts.maxDepth
        beamWidth := if opts.beamWidth ≤ 0 then 25 else opts.beamWidth
        riskTolerance := if opts.riskTolerance ≤ 0 then 2 else opts.riskTolerance
        confidenceThreshold :=
          if opts.confidenceThreshold ≤ 0 then 0.55 else opts.confidenceThreshold
        topN := if opts.topN ≤ 0 then 10 else opts.topN
        objectiveBiasWeight :=
          if opts.objectiveBiasWeight ≤ 0 then 0.35 else opts.objectiveBiasWeight
        objectiveProximityScore := opts.objectiveProximityScore } := by
  by_cases h1 : opts.maxDepth ≤ 0 <;>
  by_cases h2 : opts.beamWidth ≤ 0 <;>
  by_cases h3 : opts.riskTolerance ≤ 0 <;>
  by_cases h4 : opts.confidenceThreshold ≤ 0 <;>
  by_cases h5 : opts.topN ≤ 0 <;>
  by_cases h6 : opts.objectiveBiasWeight ≤ 0 <;>
    simp [normalizeCampaignOptions, DefaultCampaignOptions, h1, h2, h3, h4, h5, h6] <;>
    norm_num

/-- `PlanCampaign` only reads its options through the normalization. -/
theorem planCampaign_congr_norm (e : Engine) (objective : NodeType)
    {opts opts' : CampaignOptions}
    (h : normalizeCampaignOptions opts = normalizeCampaignOptions opts') :
    planCampaign e objective opts = planCampaign e objective opts' := by
  unfold planCampaign planCampaignSt
  rw [h]

/-- Claim C10: `PlanCampaign` silently coerces every non-positive option to
its default — for options in which `MaxDepth`, `BeamWidth`, `RiskTolerance`,
`ConfidenceThreshold`, `TopN` or `ObjectiveBiasWeight` is `≤ 0`, the search
behaves exactly as if that field were `5`, `25`, `2.0`, `0.55`, `10`, `0.35`
respectively; in particular the effective risk tolerance and confidence
threshold are always strictly positive. -/
theorem c10_option_normalization :
    ∀ (opts : CampaignOptions) (e : Engine) (objective : NodeType),
      (opts.maxDepth ≤ 0 →
        planCampaign e objective opts = planCampaign e objective { opts with maxDepth := 5 }) ∧
      (opts.beamWidth ≤ 0 →
        planCampaign e objective opts = planCampaign e objective { opts with beamWidth := 25 }) ∧
      (opts.riskTolerance ≤ 0 →
        planCampaign e objective opts =
          planCampaign e objective { opts with riskTolerance := 2 }) ∧
      (opts.confidenceThreshold ≤ 0 →
        planCampaign e objective opts =
          planCampaign e objective { opts with confidenceThreshold := 0.55 }) ∧
      (opts.topN ≤ 0 →
        planCampaign e objective opts = planCampaign e objective { opts with topN := 10 }) ∧
      (opts.objectiveBiasWeight ≤ 0 →
        planCampaign e objective opts =
          planCampaign e objective { opts with objectiveBiasWeight := 0.35 }) ∧
      0 < (normalizeCampaignOptions opts).riskTolerance ∧
      0 < (normalizeCampaignOptions opts).confidenceThreshold := by
  intro opts e objective
  refine ⟨?_, ?_, ?_, ?_, ?_, ?_, ?_, ?_⟩
  · intro h
    refine planCampaign_congr_norm e objective ?_
    rw [normalizeCampaignOptions_eq, normalizeCampaignOptions_eq]
    simp [h]
  · intro h
    refine planCampaign_congr_norm e objective ?_
    rw [normalizeCampaignOptions_eq, normalizeCampaignOptions_eq]
    simp [h]
  · intro h
    refine planCampaign_congr_norm e objective ?_
    rw [normalizeCampaignOptions_eq, normalizeCampaignOptions_eq]
    simp [h]
  · intro h
    refine planCampaign_congr_norm e objective ?_
    rw [normalizeCampaignOptions_eq, normalizeCampaignOptions_eq]
    simp [h]
  · intro h
    refine planCampaign_congr_norm e objective ?_
    rw [normalizeCampaignOptions_eq, normalizeCampaignOptions_eq]
    simp [h]
  · intro h
    refine planCampaign_congr_norm e objective ?_
    rw [normalizeCampaignOptions_eq, normalizeCampaignOptions_eq]
    simp [h]
  · rw [normalizeCampaignOptions_eq]
    by_cases h : opts.riskTolerance ≤ 0
    · simp [h]
    · simp only [h, if_false]
      linarith [not_le.mp h]
  · rw [normalizeCampaignOptions_eq]
    by_cases h : opts.confidenceThreshold ≤ 0
    · simp [h]
      norm_num
    · simp only [h, if_false]
      linarith [not_le.mp h]

/-- Claim C10 witness: a concrete all-zero options value is planned exactly
as when its risk tolerance is set to the default, and its effective
thresholds are positive. -/
theorem c10_option_normalization_witness :
    optsC10.riskTolerance ≤ 0 ∧
    planCampaign engC10 "x" optsC10 =
      planCampaign engC10 "x" { optsC10 with riskTolerance := 2 } ∧
    0 < (normalizeCampaignOptions optsC10).riskTolerance ∧
    0 < (normalizeCampaignOptions optsC10).confidenceThreshold := by
  have h := c10_option_normalization optsC10 engC10 "x"
  exact ⟨by decide, h.2.2.1 (by decide), h.2.2.2.2.2.2.1, h.2.2.2.2.2.2.2⟩

/-! ### Claim C4: exposure tracker monotonicity (uint64 overflow) -/

/-- Claim C4 (code bug): the tracker's own contract ("exposure can only
increase, never decrease"; reaching `maxScore` latches `halted`) is violated
by `uint64` wrap-around.  With `maxScore = 2^64 − 1`, `Add(2^64 − 2)` then
`Add(3)` both succeed, the second wraps the score from `2^64 − 2` down to
`1`, and `halted` is never latched even though the mathematical sum exceeds
`maxScore`. -/
theorem c4_exposure_overflow_eval :
    trackerAdd { maxScore := U64MOD - 1, score := 0, halted := false } (U64MOD - 2) =
      .ok { maxScore := U64MOD - 1, score := U64MOD - 2, halted := false } ∧
    trackerAdd { maxScore := U64MOD - 1, score := U64MOD - 2, halted := false } 3 =
      .ok { maxScore := U64MOD - 1, score := 1, halted := false } ∧
    (1 : Nat) < U64MOD - 2 := by
  refine ⟨?_, ?_, ?_⟩ <;> decide

/-! ### Claim C9: evidence signature round-trip -/

/-- `canonicalPayload` ignores the `Integrity` field. -/
theorem canonicalPayload_setIntegrity (a : Artifact) (x : String) :
    canonicalPayload { a with integrity := x } = canonicalPayload a := rfl

/-- `Artifact.Validate` ignores the `Integrity` field. -/
theorem artifactValidate_setIntegrity (a : Artifact) (x : String) :
    artifactValidate { a with integrity := x } = artifactValidate a := rfl

/-- Characterisation of a successful `Sign`. -/
theorem artifactSign_ok_iff (hashFn : SignedView → String) (a b : Artifact) :
    artifactSign hashFn a = .ok b ↔
      (artifactValidate a = none ∧ a.integrity = "" ∧
        b = { a with integrity := hashFn (canonicalPayload a) }) := by
  unfold artifactSign
  cases hv : artifactValidate a with
  | some e => simp
  | none =>
      by_cases hi : a.integrity = ""
      · rw [if_neg (by simp [hi])]
        constructor
        · intro h
          exact ⟨rfl, hi, (Except.ok.inj h).symm⟩
        · rintro ⟨-, -, rfl⟩
          rfl
      · rw [if_pos hi]
        constructor
        · intro h
          exact Except.noConfusion h
        · rintro ⟨-, he, -⟩
          exact absurd he hi

/-- Claim C9: an artifact can be signed at most once — `Sign` fails whenever
`Integrity` is already non-empty (or a required field is missing); a
successful `Sign` stores the hash of the canonical view of all fields except
`Integrity`; immediately afterwards `Verify` returns `true`, re-signing
fails, and mutating any signed field (any change to the canonical view whose
hash differs — hash collision-freedom is the explicit hypothesis standing
for SHA-256's collision resistance) makes `Verify` return `false`. -/
theorem c9_signature_roundtrip :
    ∀ (hashFn : SignedView → String) (a a' : Artifact),
      (a.integrity ≠ "" → ∀ b, artifactSign hashFn a ≠ .ok b) ∧
      (artifactSign hashFn a = .ok a' →
        a'.integrity = hashFn (canonicalPayload a) ∧
        canonicalPayload a' = canonicalPayload a) ∧
      (artifactSign hashFn a = .ok a' → hashFn (canonicalPayload a) ≠ "" →
        artifactVerify hashFn a' = .ok true ∧
        (∀ b, artifactSign hashFn a' ≠ .ok b) ∧
        (∀ a'' : Artifact, a''.integrity = a'.integrity →
          canonicalPayload a'' ≠ canonicalPayload a' →
          hashFn (canonicalPayload a'') ≠ hashFn (canonicalPayload a') →
          artifactVerify hashFn a'' = .ok false)) := by
  intro hashFn a a'
  refine ⟨?_, ?_, ?_⟩
  · intro hne b heq
    rcases (artifactSign_ok_iff hashFn a b).mp heq with ⟨-, hi, -⟩
    exact hne hi
  · intro heq
    rcases (artifactSign_ok_iff hashFn a a').mp heq with ⟨-, -, rfl⟩
    exact ⟨rfl, canonicalPayload_setIntegrity a _⟩
  · intro heq hno
    rcases (artifactSign_ok_iff hashFn a a').mp heq with ⟨hval, hint, rfl⟩
    refine ⟨?_, ?_, ?_⟩
    · unfold artifactVerify
      rw [if_neg (by simpa using hno)]
      simp only [Except.ok.injEq, decide_eq_true_eq]
      rfl
    · intro b hb
      rcases (artifactSign_ok_iff hashFn _ b).mp hb with ⟨-, hi, -⟩
      exact hno (by simpa using hi)
    · intro a'' hint'' hview'' hhash''
      unfold artifactVerify
      rw [if_neg (by simp only [hint'']; simpa using hno)]
      rw [canonicalPayload_setIntegrity] at hhash''
      have hne : a''.integrity ≠ hashFn (canonicalPayload a'') := by
        rw [hint'']
        intro h
        exact hhash'' (by rw [← h]; rfl)
      simp [hne]

/-- Claim C9 witness: a concrete artifact signed with a concrete
collision-free hash verifies, refuses re-signing, and fails verification
after its output field is tampered with. -/
theorem c9_signature_roundtrip_witness :
    artifactVerify
        (fun v => if v = canonicalPayload
            { artifactID := "a1", campaignID := "c1", techniqueID := "T1595",
              target := "t1", executedAt := 7, success := true, output := "",
              exposureScore := 10, integrity := "" } then "h0" else "h1")
        { artifactID := "a1", campaignID := "c1", techniqueID := "T1595",
          target := "t1", executedAt := 7, success := true, output := "",
          exposureScore := 10, integrity := "h0" } = .ok true ∧
    (∀ b, artifactSign
        (fun v => if v = canonicalPayload
            { artifactID := "a1", campaignID := "c1", techniqueID := "T1595",
              target := "t1", executedAt := 7, success := true, output := "",
              exposureScore := 10, integrity := "" } then "h0" else "h1")
        { artifactID := "a1", campaignID := "c1", techniqueID := "T1595",
          target := "t1", executedAt := 7, success := true, output := "",
          exposureScore := 10, integrity := "h0" } ≠ .ok b) ∧
    artifactVerify
        (fun v => if v = canonicalPayload
            { artifactID := "a1", campaignID := "c1", techniqueID := "T1595",
              target := "t1", executedAt := 7, success := true, output := "",
              exposureScore := 10, integrity := "" } then "h0" else "h1")
        { artifactID := "a1", campaignID := "c1", techniqueID := "T1595",
          target := "t1", executedAt := 7, success := true, output := "tampered",
          exposureScore := 10, integrity := "h0" } = .ok false := by
  have h := c9_signature_roundtrip
    (fun v => if v = canonicalPayload
        { artifactID := "a1", campaignID := "c1", techniqueID := "T1595",
          target := "t1", executedAt := 7, success := true, output := "",
          exposureScore := 10, integrity := "" } then "h0" else "h1")
    { artifactID := "a1", campaignID := "c1", techniqueID := "T1595",
      target := "t1", executedAt := 7, success := true, output := "",
      exposureScore := 10, integrity := "" }
    { artifactID := "a1", campaignID := "c1", techniqueID := "T1595",
      target := "t1", executedAt := 7, success := true, output := "",
      exposureScore := 10, integrity := "h0" }
  have h3 := h.2.2 (by decide) (by decide)
  exact ⟨h3.1, h3.2.1, h3.2.2
    { artifactID := "a1", campaignID := "c1", techniqueID := "T1595",
      target := "t1", executedAt := 7, success := true, output := "tampered",
      exposureScore := 10, integrity := "h0" } (by decide) (by decide) (by decide)⟩

/-! ### Claim C2: campaign objective-proximity scoring -/

theorem supporting_fold_inner (objective : NodeType) :
    ∀ (l : List NodeType) (s : ℚ),
      l.foldl (fun s' req => if req = objective then s' + 0.5 else s') s =
        s + (l.count objective : ℚ) * 0.5 := by
  intro l
  induction l with
  | nil => intro s; simp
  | cons x xs ih =>
      intro s
      by_cases hx : x = objective
      · simp only [List.foldl_cons, if_pos hx, ih, List.count_cons, hx, beq_self_eq_true,
          if_true]
        push_cast
        ring
      · simp only [List.foldl_cons, if_neg hx, ih, List.count_cons]
        have hb : ¬ (x == objective) = true := by simpa using hx
        simp [hb]

theorem supporting_fold_eq (action : ActionClass) (objective : NodeType) :
    action.preconditions.foldl
        (fun s p => p.requiredNodeTypes.foldl
          (fun s' req => if req = objective then s' + 0.5 else s') s) 0 =
      (c2SupportCount action objective : ℚ) * 0.5 := by
  unfold c2SupportCount
  have general : ∀ (qs : List GraphPattern) (s : ℚ),
      qs.foldl (fun s' q => q.requiredNodeTypes.foldl
        (fun s'' req => if req = objective then s'' + 0.5 else s'') s') s =
      s + ((qs.map (fun q => q.requiredNodeTypes.count objective)).sum : ℚ) * 0.5 := by
    intro qs
    induction qs with
    | nil => intro s; simp
    | cons q qs ihq =>
        intro s
        rw [List.foldl_cons, ihq, supporting_fold_inner]
        simp only [List.map_cons, List.sum_cons]
        ring
  simpa using general action.preconditions 0

/-- Claim C2 (amended): the proximity added during campaign projection is
`1.0` when the action produces the objective kind; otherwise it is the sum
of `1/(distance+1)` and `0.5` per objective-kind requirement of the action's
preconditions — the two non-producing contributions add, they are not
mutually exclusive cases.  The second conjunct confirms that
`projectCampaignCandidate` adds exactly this proximity, scaled by
`objective_bias_weight`, to the §4.6 score. -/
theorem c2_objective_proximity_amended :
    (∀ (distance : Nat) (action : ActionClass) (objective : NodeType),
      objectiveProximityScore distance action objective =
        if producesNode action.producesNodes objective then 1
        else 1 / ((distance : ℚ) + 1) + (c2SupportCount action objective : ℚ) * 0.5) ∧
    (∀ (candidate : CampaignCandidate) (action : ActionClass) (classes : List ActionClass)
        (objective : NodeType) (cfg : CampaignOptions) (cache : Cache)
        (proj : CampaignCandidate) (cache' : Cache),
      projectCampaignCandidate candidate action classes objective cfg cache =
          (some proj, cache') →
      proj.score =
        (scorePathWithCache (hypothesesFromAttackSteps proj.steps) proj.actions classes
            (nodeTypeIf proj.objectiveReached objective) DefaultAttackPathConfig cache
            (snapshotHash proj.graph)).1.score +
          objectiveProximityScore (objectiveDistance proj.actions objective) action objective *
            cfg.objectiveBiasWeight) := by
  constructor
  · intro distance action objective
    unfold objectiveProximityScore
    by_cases hp : producesNode action.producesNodes objective
    · rw [if_pos hp, if_pos hp]
    · rw [if_neg hp, if_neg hp, supporting_fold_eq]
  · intro candidate action classes objective cfg cache proj cache' h
    unfold projectCampaignCandidate at h
    cases hps : projectCampaignState
        { graph := candidate.graph, phaseProgress := candidate.phaseProgress } action with
    | error e =>
        rw [hps] at h
        exact absurd h (by simp)
    | ok proj0 =>
        rw [hps] at h
        dsimp only at h
        split_ifs at h with h1 h2 h3
        · exact absurd h (by simp)
        · exact absurd h (by simp)
        · exact absurd h (by simp)
        · simp only [Prod.mk.injEq, Option.some.injEq] at h
          obtain ⟨hp, -⟩ := h
          subst hp
          rfl

/-- Claim C2 counterexample: for an action with one precondition requiring
the objective kind and distance 0, the code yields `1/(0+1) + 0.5 = 1.5`
while the claim's mutually-exclusive second case yields `0.5`. -/
theorem c2_objective_proximity_counterexample :
    objectiveProximityScore 0 acC2 ("goal") = 1.5 ∧
    c2ClaimedProximity 0 acC2 ("goal") = 0.5 ∧
    objectiveProximityScore 0 acC2 ("goal") ≠ c2ClaimedProximity 0 acC2 ("goal") := by
  refine ⟨?_, ?_, ?_⟩ <;> decide

/-- Claim C2 witness: the amended proximity accounting holds at a concrete
successful projection. -/
theorem c2_objective_proximity_witness :
    projectCampaignCandidate candW0 acW [acW] NodeTypeAttackPath DefaultCampaignOptions
        (some []) = (some projW, prW.2) ∧
    projW.score =
      (scorePathWithCache (hypothesesFromAttackSteps projW.steps) projW.actions [acW]
          (nodeTypeIf projW.objectiveReached NodeTypeAttackPath) DefaultAttackPathConfig
          (some []) (snapshotHash projW.graph)).1.score +
        objectiveProximityScore (objectiveDistance projW.actions NodeTypeAttackPath) acW
          NodeTypeAttackPath * DefaultCampaignOptions.objectiveBiasWeight := by
  have hok : projectCampaignCandidate candW0 acW [acW] NodeTypeAttackPath
      DefaultCampaignOptions (some []) = (some projW, prW.2) := by decide
  exact ⟨hok, c2_objective_proximity_amended.2 candW0 acW [acW] NodeTypeAttackPath
    DefaultCampaignOptions (some []) projW prW.2 hok⟩

/-! ### Claim C7: the path score formula -/

theorem zipConfSum (pathClasses : List ActionClass) :
    ∀ (steps : List Hypothesis), steps.length ≤ pathClasses.length →
      ((pathClasses.zip steps).map (fun p => p.2.confidence)).foldl (· + ·) 0 =
        (steps.map Hypothesis.confidence).foldl (· + ·) 0 := by
  have key : ∀ (pcs : List ActionClass) (steps : List Hypothesis),
      steps.length ≤ pcs.length →
      (pcs.zip steps).map (fun p => p.2.confidence) = steps.map Hypothesis.confidence := by
    intro pcs
    induction pcs with
    | nil =>
        intro steps h
        cases steps with
        | nil => rfl
        | cons s ss => simp at h
    | cons p ps ih =>
        intro steps h
        cases steps with
        | nil => rfl
        | cons s ss =>
            simp only [List.zip_cons_cons, List.map_cons]
            rw [ih ss (by simpa using h)]
  intro steps h
  rw [key pathClasses steps h]

/-- Claim C7 (amended): whenever `|steps| ≤ |path classes|` (true of every
internal caller, which builds one hypothesis per class), the scored path has
exactly the claimed score — `(avg_conf × 0.8) + (feasibility × 1.1) +
(0.15 × unlocked) − risk_penalty(risk) − (0.25 × |steps|) + proximity`, the
whole sum multiplied by `1.35` exactly when the objective is non-empty — with
`Risk` the sum of the path classes' risk weights and `Valid = true`.  When
`|steps| > |path classes|`, only the first `|path classes|` step confidences
enter the average (see the counterexample). -/
theorem c7_score_formula_amended :
    ∀ (steps : List Hypothesis) (pathClasses allClasses : List ActionClass)
      (objective : NodeType) (cfg : AttackPathConfig) (cache : Cache) (graphHash : String),
      steps.length ≤ pathClasses.length →
      (scorePathWithCache steps pathClasses allClasses objective cfg cache graphHash).1.score =
        c7ClaimedScore steps pathClasses allClasses objective cfg cache graphHash ∧
      (scorePathWithCache steps pathClasses allClasses objective cfg cache graphHash).1.risk =
        cumulativeRisk pathClasses ∧
      (scorePathWithCache steps pathClasses allClasses objective cfg cache graphHash).1.valid =
        true := by
  intro steps pathClasses allClasses objective cfg cache graphHash hlen
  refine ⟨?_, rfl, rfl⟩
  simp only [scorePathWithCache, c7ClaimedScore, riskPenalty, ConfidenceWeight,
    FeasibilityWeight, UnlockFactor, DepthFactor, SmallRiskFactor, RiskThresholdConst,
    ObjectiveProximityFactor]
  rw [zipConfSum pathClasses steps hlen]
  cases steps with
  | nil =>
      simp only [List.isEmpty_nil, List.length_nil]
      split_ifs <;> first
        | contradiction
        | omega
        | ring
  | cons s ss =>
      simp only [List.isEmpty_cons, List.length_cons]
      split_ifs <;> first
        | contradiction
        | (exfalso; omega)
        | ring

/-- Claim C7 counterexample: with two steps of confidence 1 but a single
path class, the code divides the confidence of the first step alone by the
step count (score `1.5`), while the claim's mean of all step confidences
gives `1.9`. -/
theorem c7_score_formula_counterexample :
    (scorePathWithCache [hypC7, hypC7] [acC7] [acC7] "" DefaultAttackPathConfig none
        "").1.score = 1.5 ∧
    c7ClaimedScore [hypC7, hypC7] [acC7] [acC7] "" DefaultAttackPathConfig none "" = 1.9 ∧
    (scorePathWithCache [hypC7, hypC7] [acC7] [acC7] "" DefaultAttackPathConfig none
        "").1.score ≠
      c7ClaimedScore [hypC7, hypC7] [acC7] [acC7] "" DefaultAttackPathConfig none "" := by
  refine ⟨?_, ?_, ?_⟩ <;> decide

/-- Claim C7 witness: the amended formula evaluated at a concrete one-step
path. -/
theorem c7_score_formula_witness :
    ([hypC7] : List Hypothesis).length ≤ ([acC7] : List ActionClass).length ∧
    (scorePathWithCache [hypC7] [acC7] [acC7] "" DefaultAttackPathConfig none "").1.score =
      c7ClaimedScore [hypC7] [acC7] [acC7] "" DefaultAttackPathConfig none "" := by
  exact ⟨by decide, (c7_score_formula_amended [hypC7] [acC7] [acC7] ""
    DefaultAttackPathConfig none "" (by decide)).1⟩

/-! ### Structural lemmas about the attack-path search -/

theorem scorePathWithCache_risk (steps : List Hypothesis) (pcs acs : List ActionClass)
    (objective : NodeType) (cfg : AttackPathConfig) (cache : Cache) (gh : String) :
    (scorePathWithCache steps pcs acs objective cfg cache gh).1.risk = cumulativeRisk pcs :=
  rfl

theorem scorePathWithCache_steps (steps : List Hypothesis) (pcs acs : List ActionClass)
    (objective : NodeType) (cfg : AttackPathConfig) (cache : Cache) (gh : String) :
    (scorePathWithCache steps pcs acs objective cfg cache gh).1.steps = steps :=
  rfl

theorem buildHypotheses_ids :
    ∀ (l : List ActionClass),
      (buildHypotheses l).map Hypothesis.actionClassID = l.map ActionClass.id := by
  have aux : ∀ (i : Nat) (l : List ActionClass),
      (buildHypotheses.go i l).map Hypothesis.actionClassID = l.map ActionClass.id := by
    intro i l
    induction l generalizing i with
    | nil => rfl
    | cons x xs ih => simp [buildHypotheses.go, hypothesisForAction, ih]
  intro l
  exact aux 0 l

/-- The effective risk limit of the depth loop, and its relation to the
configured threshold. -/
theorem riskLimit_le_threshold (cfg : AttackPathConfig) (hthr : 0 < cfg.riskThreshold) :
    0 < (if cfg.riskThreshold > 0 ∧ cfg.riskThreshold < 2.0 then cfg.riskThreshold * 0.9
      else cfg.riskThreshold) ∧
    (if cfg.riskThreshold > 0 ∧ cfg.riskThreshold < 2.0 then cfg.riskThreshold * 0.9
      else cfg.riskThreshold) ≤ cfg.riskThreshold := by
  split_ifs with h
  · constructor
    · have : (0 : ℚ) < 0.9 := by norm_num
      exact mul_pos hthr this
    · nlinarith [hthr.le]
  · exact ⟨hthr, le_refl _⟩

theorem attackExtendStep_paths (cfg : AttackPathConfig) (classes : List ActionClass)
    (currentPhase : OperationPhase) (gCopy : Snapshot) (cand : AttackCandidate)
    (acc : AttackAcc) (next : ActionClass) :
    (attackExtendStep cfg classes currentPhase gCopy cand acc next).paths = acc.paths := by
  unfold attackExtendStep
  split_ifs <;> rfl

theorem attackExtendStep_seen (cfg : AttackPathConfig) (classes : List ActionClass)
    (currentPhase : OperationPhase) (gCopy : Snapshot) (cand : AttackCandidate)
    (acc : AttackAcc) (next : ActionClass) :
    (attackExtendStep cfg classes currentPhase gCopy cand acc next).seen = acc.seen := by
  unfold attackExtendStep
  split_ifs <;> rfl

theorem extendFold_paths (cfg : AttackPathConfig) (classes : List ActionClass)
    (currentPhase : OperationPhase) (gCopy : Snapshot) (cand : AttackCandidate)
    (l : List ActionClass) (acc : AttackAcc) :
    (l.foldl (attackExtendStep cfg classes currentPhase gCopy cand) acc).paths = acc.paths := by
  induction l generalizing acc with
  | nil => rfl
  | cons x xs ih => rw [List.foldl_cons, ih, attackExtendStep_paths]

theorem attackExtendStep_nextBeam {cfg : AttackPathConfig} {classes : List ActionClass}
    {currentPhase : OperationPhase} {gCopy : Snapshot} {cand : AttackCandidate}
    {acc : AttackAcc} {next : ActionClass} {c : AttackCandidate} :
    c ∈ (attackExtendStep cfg classes currentPhase gCopy cand acc next).nextBeam →
      c ∈ acc.nextBeam ∨
        (actionInStack cand.stack next.id = false ∧ c.stack = cand.stack ++ [next]) := by
  unfold attackExtendStep
  split_ifs with h1 h2
  · exact fun h => Or.inl h
  · intro h
    dsimp only at h
    rcases hsc : scorePathWithCache (buildHypotheses (cand.stack ++ [next]))
        (cand.stack ++ [next]) classes "" cfg acc.cache (snapshotHash gCopy) with
      ⟨nextScored, cache1⟩
    rw [hsc] at h
    dsimp only at h
    rcases List.mem_append.mp h with h | h
    · exact Or.inl h
    · rcases List.mem_singleton.mp h with rfl
      push_neg at h1
      exact Or.inr ⟨Bool.eq_false_iff.mpr h1.2, rfl⟩
  · exact fun h => Or.inl h

theorem extendFold_nextBeam {cfg : AttackPathConfig} {classes : List ActionClass}
    {currentPhase : OperationPhase} {gCopy : Snapshot} {cand : AttackCandidate} :
    ∀ (l : List ActionClass) (acc : AttackAcc) (c : AttackCandidate),
      c ∈ (l.foldl (attackExtendStep cfg classes currentPhase gCopy cand) acc).nextBeam →
        c ∈ acc.nextBeam ∨
          ∃ next : ActionClass, actionInStack cand.stack next.id = false ∧
            c.stack = cand.stack ++ [next] := by
  intro l
  induction l with
  | nil => intro acc c h; exact Or.inl h
  | cons x xs ih =>
      intro acc c h
      rw [List.foldl_cons] at h
      rcases ih _ c h with h' | h'
      · rcases attackExtendStep_nextBeam h' with h'' | h''
        · exact Or.inl h''
        · exact Or.inr ⟨x, h''⟩
      · exact Or.inr h'

/-- What one candidate visit can add to the emitted path list: nothing, or
one path whose steps are exactly the candidate's stack and whose risk obeys
the effective risk limit. -/
theorem visitAttack_emit {liveGraph : Graph} {st : Option CampaignState}
    {idx : ActionClassIndex} {cfg : AttackPathConfig}
    {roe : ActionClass → Graph → Option CampaignState → Bool}
    {classes : List ActionClass} {currentPhase : OperationPhase} {ext : Bool}
    {acc : AttackAcc} {cand : AttackCandidate} :
    ∀ p ∈ (visitAttackCandidate liveGraph st idx cfg roe classes currentPhase ext
        acc cand).paths,
      p ∈ acc.paths ∨
        ((0 < cfg.riskThreshold → p.risk ≤ cfg.riskThreshold) ∧
          p.steps.map Hypothesis.actionClassID = cand.stack.map ActionClass.id) := by
  intro p hp
  unfold visitAttackCandidate at hp
  cases hl : cand.stack.getLast? with
  | none => rw [hl] at hp; exact Or.inl hp
  | some latest =>
      rw [hl] at hp
      dsimp only at hp
      by_cases h1 : ¬ (matchSnapshotPatterns (snapshotClone cand.graph) latest.preconditions
          && roe latest liveGraph st) = true
      · rw [if_pos h1] at hp; exact Or.inl hp
      · rw [if_neg h1] at hp
        by_cases h2 : (if cfg.riskThreshold > 0 ∧ cfg.riskThreshold < 2.0 then
              cfg.riskThreshold * 0.9 else cfg.riskThreshold) > 0 ∧
            cumulativeRisk cand.stack > (if cfg.riskThreshold > 0 ∧ cfg.riskThreshold < 2.0
              then cfg.riskThreshold * 0.9 else cfg.riskThreshold)
        · rw [if_pos h2] at hp; exact Or.inl hp
        · rw [if_neg h2] at hp
          rcases hfo : findObjective cfg.objectiveNodeTypes latest.producesNodes with
            ⟨objective, reached⟩
          rw [hfo] at hp
          dsimp only at hp
          rcases hsc : scorePathWithCache (buildHypotheses cand.stack) cand.stack classes
              objective cfg acc.cache
              (snapshotHash (applyAction (snapshotClone cand.graph) latest)) with
            ⟨path, cache1⟩
          rw [hsc] at hp
          dsimp only at hp
          have hrisk : path.risk = cumulativeRisk cand.stack := by
            have h := scorePathWithCache_risk (buildHypotheses cand.stack) cand.stack classes
              objective cfg acc.cache
              (snapshotHash (applyAction (snapshotClone cand.graph) latest))
            rw [hsc] at h; exact h
          have hsteps : path.steps = buildHypotheses cand.stack := by
            have h := scorePathWithCache_steps (buildHypotheses cand.stack) cand.stack classes
              objective cfg acc.cache
              (snapshotHash (applyAction (snapshotClone cand.graph) latest))
            rw [hsc] at h; exact h
          have hmem : p ∈ acc.paths ++ [path] ∨ p ∈ acc.paths := by
            by_cases hext : ¬ ext = true
            · rw [if_pos hext] at hp
              split_ifs at hp with hr hs
              · exact Or.inr hp
              · exact Or.inl hp
              · exact Or.inr hp
            · rw [if_neg hext, extendFold_paths] at hp
              split_ifs at hp with hr hs
              · exact Or.inr hp
              · exact Or.inl hp
              · exact Or.inr hp
          rcases hmem with hm | hm
          · rcases List.mem_append.mp hm with h | h
            · exact Or.inl h
            · rcases List.mem_singleton.mp h with rfl
              refine Or.inr ⟨?_, ?_⟩
              · intro hthr
                rcases riskLimit_le_threshold cfg hthr with ⟨hpos, hle⟩
                rw [hrisk]
                by_contra hgt
                push_neg at hgt
                exact h2 ⟨hpos, lt_of_le_of_lt hle hgt⟩
              · rw [hsteps, buildHypotheses_ids]
          · exact Or.inl hm

theorem actionInStack_eq_false_iff (stack : List ActionClass) (s : String) :
    actionInStack stack s = false ↔ s ∉ stack.map ActionClass.id := by
  simp [actionInStack]

theorem nodup_ids_append {stack : List ActionClass} {next : ActionClass}
    (h : (stack.map ActionClass.id).Nodup) (hn : actionInStack stack next.id = false) :
    ((stack ++ [next]).map ActionClass.id).Nodup := by
  rw [List.map_append, List.map_singleton]
  refine List.Nodup.append h (List.nodup_singleton _) ?_
  intro a ha hb
  rcases List.mem_singleton.mp hb with rfl
  exact (actionInStack_eq_false_iff stack next.id).mp hn ha

/-- What one candidate visit can add to the next beam: nothing, or candidates
extending the visited candidate's stack with one not-yet-used action. -/
theorem visitAttack_nextBeam {liveGraph : Graph} {st : Option CampaignState}
    {idx : ActionClassIndex} {cfg : AttackPathConfig}
    {roe : ActionClass → Graph → Option CampaignState → Bool}
    {classes : List ActionClass} {currentPhase : OperationPhase} {ext : Bool}
    {acc : AttackAcc} {cand : AttackCandidate} :
    ∀ c ∈ (visitAttackCandidate liveGraph st idx cfg roe classes currentPhase ext
        acc cand).nextBeam,
      c ∈ acc.nextBeam ∨
        ∃ next : ActionClass, actionInStack cand.stack next.id = false ∧
          c.stack = cand.stack ++ [next] := by
  intro c hc
  unfold visitAttackCandidate at hc
  cases hl : cand.stack.getLast? with
  | none => rw [hl] at hc; exact Or.inl hc
  | some latest =>
      rw [hl] at hc
      dsimp only at hc
      by_cases h1 : ¬ (matchSnapshotPatterns (snapshotClone cand.graph) latest.preconditions
          && roe latest liveGraph st) = true
      · rw [if_pos h1] at hc; exact Or.inl hc
      · rw [if_neg h1] at hc
        by_cases h2 : (if cfg.riskThreshold > 0 ∧ cfg.riskThreshold < 2.0 then
              cfg.riskThreshold * 0.9 else cfg.riskThreshold) > 0 ∧
            cumulativeRisk cand.stack > (if cfg.riskThreshold > 0 ∧ cfg.riskThreshold < 2.0
              then cfg.riskThreshold * 0.9 else cfg.riskThreshold)
        · rw [if_pos h2] at hc; exact Or.inl hc
        · rw [if_neg h2] at hc
          rcases hfo : findObjective cfg.objectiveNodeTypes latest.producesNodes with
            ⟨objective, reached⟩
          rw [hfo] at hc
          dsimp only at hc
          rcases hsc : scorePathWithCache (buildHypotheses cand.stack) cand.stack classes
              objective cfg acc.cache
              (snapshotHash (applyAction (snapshotClone cand.graph) latest)) with
            ⟨path, cache1⟩
          rw [hsc] at hc
          dsimp only at hc
          by_cases hext : ¬ ext = true
          · rw [if_pos hext] at hc
            split_ifs at hc <;> exact Or.inl hc
          · rw [if_neg hext] at hc
            rcases extendFold_nextBeam _ _ c hc with h | h
            · split_ifs at h <;> exact Or.inl h
            · exact Or.inr h

/-- The invariant of the attack-path depth loop: every emitted path obeys the
risk bound (whenever the threshold is positive) and repeats no action-class
id, given that every beam candidate's stack repeats no action-class id. -/
theorem attackLoop_inv (liveGraph : Graph) (st : Option CampaignState)
    (idx : ActionClassIndex) (cfg : AttackPathConfig)
    (roe : ActionClass → Graph → Option CampaignState → Bool)
    (classes : List ActionClass) (currentPhase : OperationPhase) :
    ∀ (fuel : Nat) (beam : List AttackCandidate) (paths : List AttackPath)
      (seen : List String) (cache : Cache),
      (∀ c ∈ beam, (c.stack.map ActionClass.id).Nodup) →
      (∀ p ∈ paths, (0 < cfg.riskThreshold → p.risk ≤ cfg.riskThreshold) ∧
        (p.steps.map Hypothesis.actionClassID).Nodup) →
      ∀ p ∈ attackLoop liveGraph st idx cfg roe classes currentPhase fuel beam paths
          seen cache,
        (0 < cfg.riskThreshold → p.risk ≤ cfg.riskThreshold) ∧
        (p.steps.map Hypothesis.actionClassID).Nodup := by
  intro fuel
  induction fuel with
  | zero => intro beam paths seen cache hbeam hpaths p hp; exact hpaths p hp
  | succ fuel ih =>
      intro beam paths seen cache hbeam hpaths p hp
      simp only [attackLoop] at hp
      by_cases hb : beam.isEmpty
      · rw [if_pos hb] at hp; exact hpaths p hp
      · rw [if_neg hb] at hp
        have hinv := @foldl_inv _ _
          (fun a : AttackAcc =>
            (∀ c ∈ a.nextBeam, (c.stack.map ActionClass.id).Nodup) ∧
            (∀ q ∈ a.paths, (0 < cfg.riskThreshold → q.risk ≤ cfg.riskThreshold) ∧
              (q.steps.map Hypothesis.actionClassID).Nodup))
          (visitAttackCandidate liveGraph st idx cfg roe classes currentPhase (fuel != 0))
          beam { nextBeam := [], paths := paths, seen := seen, cache := cache }
          ⟨fun c hc => absurd hc (List.not_mem_nil c), hpaths⟩
          (by
            intro a cand hPa hcand
            constructor
            · intro c hc
              rcases visitAttack_nextBeam c hc with h | ⟨next, hn, hs⟩
              · exact hPa.1 c h
              · rw [hs]; exact nodup_ids_append (hbeam cand hcand) hn
            · intro q hq
              rcases visitAttack_emit q hq with h | ⟨hr, hi⟩
              · exact hPa.2 q h
              · exact ⟨hr, hi ▸ hbeam cand hcand⟩)
        exact ih _ _ _ _ (fun c hc => hinv.1 c (mem_pruneAttackBeam hc)) hinv.2 p hp

/-- A root-beam step only appends single-action candidates. -/
theorem attackRootStep_fst {cfg : AttackPathConfig}
    {roe : ActionClass → Graph → Option CampaignState → Bool}
    {classes : List ActionClass} {currentPhase : OperationPhase} {baseSnapshot : Snapshot}
    {liveGraph : Graph} {st : Option CampaignState}
    {acc : List AttackCandidate × Cache} {root : ActionClass} :
    ∀ c ∈ (attackRootStep cfg roe classes currentPhase baseSnapshot liveGraph st
        acc root).1,
      c ∈ acc.1 ∨ ∃ r : ActionClass, c.stack = [r] := by
  intro c hc
  unfold attackRootStep at hc
  split_ifs at hc with h
  · dsimp only at hc
    rcases hsc : scorePathWithCache (buildHypotheses [root]) [root] classes "" cfg acc.2
        (snapshotHash baseSnapshot) with ⟨scored, cache1⟩
    rw [hsc] at hc
    dsimp only at hc
    rcases List.mem_append.mp hc with h' | h'
    · exact Or.inl h'
    · rcases List.mem_singleton.mp h' with rfl
      exact Or.inr ⟨root, rfl⟩
  · exact Or.inl hc

/-- The root beam consists of single-action candidates. -/
theorem rootFold_singleton {cfg : AttackPathConfig}
    {roe : ActionClass → Graph → Option CampaignState → Bool}
    {classes : List ActionClass} {currentPhase : OperationPhase} {baseSnapshot : Snapshot}
    {liveGraph : Graph} {st : Option CampaignState} (l : List ActionClass) :
    ∀ c ∈ (l.foldl (attackRootStep cfg roe classes currentPhase baseSnapshot liveGraph st)
        ([], some [])).1,
      ∃ r : ActionClass, c.stack = [r] := by
  have := @foldl_inv _ _
    (fun a : List AttackCandidate × Cache => ∀ c ∈ a.1, ∃ r : ActionClass, c.stack = [r])
    (attackRootStep cfg roe classes currentPhase baseSnapshot liveGraph st) l
    ([], some []) (fun c hc => absurd hc (List.not_mem_nil c))
    (by
      intro a root hPa hroot c hc
      rcases attackRootStep_fst c hc with h | h
      · exact hPa c h
      · exact h)
  exact this

/-- The result of a successful `ExpandAttackPaths` is either empty or the
final sort of a depth loop started from a single-action root beam and no
accumulated paths. -/
theorem expandAttackPaths_ok_shape {e : Engine} {st : Option CampaignState}
    {ps : List AttackPath} (hp : expandAttackPaths e st = Except.ok ps) :
    ps = [] ∨
    ∃ (beam : List AttackCandidate) (cache : Cache),
      (∀ c ∈ beam, ∃ r : ActionClass, c.stack = [r]) ∧
      ps = goSort AttackPath.score (fun a b => decide (a.steps.length < b.steps.length))
        (attackLoop e.graph st (buildActionClassIndex (boundActionClasses e))
          (normalizeAttackPathConfig e.attackPathConfig)
          ((normalizeAttackPathConfig e.attackPathConfig).roePolicy.getD
            (fun _ _ _ => true))
          (boundActionClasses e) (phaseForState st)
          (normalizeAttackPathConfig e.attackPathConfig).maxDepth.toNat beam [] [] cache) := by
  unfold expandAttackPaths expandAttackPathsSt at hp
  simp only [seedNodeCountSt, snapshotFromGraphSt] at hp
  split_ifs at hp with h1 h2
  · exact Or.inl (Except.ok.inj hp).symm
  · exact Or.inl (Except.ok.inj hp).symm
  · right
    refine ⟨_, _, ?_, (Except.ok.inj hp).symm⟩
    intro c hc
    exact rootFold_singleton _ c (mem_pruneAttackBeam hc)

/-- Helper fact shared by the risk-bound and uniqueness claims: every path of
a successful `ExpandAttackPaths` obeys the (normalised, positive) risk
threshold and repeats no action-class id. -/
theorem expandAttackPaths_ok_paths {e : Engine} {st : Option CampaignState}
    {ps : List AttackPath} (hp : expandAttackPaths e st = Except.ok ps) :
    ∀ p ∈ ps,
      (0 < (normalizeAttackPathConfig e.attackPathConfig).riskThreshold →
        p.risk ≤ (normalizeAttackPathConfig e.attackPathConfig).riskThreshold) ∧
      (p.steps.map Hypothesis.actionClassID).Nodup := by
  intro p hpm
  rcases expandAttackPaths_ok_shape hp with rfl | ⟨beam, cache, hbeam, rfl⟩
  · cases hpm
  · exact attackLoop_inv _ _ _ _ _ _ _ _ beam [] [] cache
      (fun c hc => by rcases hbeam c hc with ⟨r, hr⟩; rw [hr]; exact List.nodup_singleton _)
      (fun q hq => absurd hq (List.not_mem_nil q)) p ((mem_goSort _ _).mp hpm)

/-- The attack-path planner's result order: score descending, ties by the
shorter path. -/
theorem expandAttackPaths_ok_sorted {e : Engine} {st : Option CampaignState}
    {ps : List AttackPath} (hp : expandAttackPaths e st = Except.ok ps) :
    ps.Pairwise (fun a b => b.score < a.score ∨
      (b.score = a.score ∧ a.steps.length ≤ b.steps.length)) := by
  rcases expandAttackPaths_ok_shape hp with rfl | ⟨beam, cache, hbeam, rfl⟩
  · exact List.Pairwise.nil
  · have hpw := goSort_pairwise AttackPath.score
      (fun a b => decide (a.steps.length < b.steps.length))
      (natKeyLt_asymm (fun p : AttackPath => p.steps.length))
      (natKeyLt_negtrans (fun p : AttackPath => p.steps.length))
      (attackLoop e.graph st (buildActionClassIndex (boundActionClasses e))
        (normalizeAttackPathConfig e.attackPathConfig)
        ((normalizeAttackPathConfig e.attackPathConfig).roePolicy.getD (fun _ _ _ => true))
        (boundActionClasses e) (phaseForState st)
        (normalizeAttackPathConfig e.attackPathConfig).maxDepth.toNat beam [] [] cache)
    refine List.Pairwise.imp ?_ hpw
    intro a b hab
    rw [goSortLe_iff] at hab
    rcases hab with h | ⟨he, hk⟩
    · exact Or.inl h
    · rw [decide_eq_false_iff_not] at hk
      exact Or.inr ⟨he, Nat.le_of_not_lt hk⟩

/-- A successfully projected campaign candidate obeys the risk tolerance. -/
theorem projectCampaignCandidate_risk {candidate : CampaignCandidate} {action : ActionClass}
    {classes : List ActionClass} {objective : NodeType} {cfg : CampaignOptions}
    {cache cache2 : Cache} {projected : CampaignCandidate}
    (h : projectCampaignCandidate candidate action classes objective cfg cache =
      (some projected, cache2)) :
    projected.risk ≤ cfg.riskTolerance := by
  unfold projectCampaignCandidate at h
  rcases hps : projectCampaignState
      { graph := candidate.graph, phaseProgress := candidate.phaseProgress } action with
    msg | proj
  · rw [hps] at h; simp at h
  · rw [hps] at h
    dsimp only at h
    by_cases hr : cumulativeRisk (candidate.actions ++ [action]) > cfg.riskTolerance
    · rw [if_pos hr] at h; simp at h
    · rw [if_neg hr] at h
      by_cases hcf : averageCampaignConfidence (candidate.steps ++
          [attackStepForAction action (candidate.actions ++ [action]).length]) <
          cfg.confidenceThreshold
      · rw [if_pos hcf] at h; simp at h
      · rw [if_neg hcf] at h
        by_cases hf : candidate.steps.length > 0 ∧
            averageFeasibility (candidate.actions ++ [action]) + epsFeas <
              candidate.feasibility
        · rw [if_pos hf] at h; simp at h
        · rw [if_neg hf] at h
          rcases hsc : scorePathWithCache
              (hypothesesFromAttackSteps (candidate.steps ++
                [attackStepForAction action (candidate.actions ++ [action]).length]))
              (candidate.actions ++ [action]) classes
              (nodeTypeIf (producesNode action.producesNodes objective) objective)
              DefaultAttackPathConfig cache
              (snapshotHash proj.graph) with ⟨scored, cacheS⟩
          rw [hsc] at h
          dsimp only at h
          rw [Prod.mk.injEq] at h
          obtain ⟨h1, -⟩ := h
          rw [← Option.some.inj h1]
          exact le_of_not_lt hr

/-- What one `(candidate, action)` try can add to the campaign list: nothing,
or one campaign within the risk tolerance. -/
theorem campaignTryAction_campaigns {classes : List ActionClass} {objective : NodeType}
    {cfg : CampaignOptions} {currentPhase : OperationPhase}
    {candidate : CampaignCandidate} {acc : CampAcc} {action : ActionClass} :
    ∀ c ∈ (campaignTryAction classes objective cfg currentPhase candidate acc
        action).campaigns,
      c ∈ acc.campaigns ∨ c.risk ≤ cfg.riskTolerance := by
  intro c hc
  unfold campaignTryAction at hc
  by_cases h1 : ¬ (campaignPhaseAllowed currentPhase candidate.phaseProgress action.phase &&
      matchSnapshotPatterns candidate.graph action.preconditions) = true
  · rw [if_pos h1] at hc; exact Or.inl hc
  · rw [if_neg h1] at hc
    rcases hpc : projectCampaignCandidate candidate action classes objective cfg acc.cache
      with ⟨op, cache2⟩
    rw [hpc] at hc
    cases op with
    | none => exact Or.inl hc
    | some projected =>
        dsimp only at hc
        split_ifs at hc with hreach hkey
        · exact Or.inl hc
        · rcases List.mem_append.mp hc with h | h
          · exact Or.inl h
          · rcases List.mem_singleton.mp h with rfl
            exact Or.inr (projectCampaignCandidate_risk hpc)
        · exact Or.inl hc

/-- One beam candidate's visit can only add risk-tolerable campaigns. -/
theorem visitCampaign_campaigns {idx : ActionClassIndex} {classes : List ActionClass}
    {objective : NodeType} {cfg : CampaignOptions} {currentPhase : OperationPhase}
    {acc : CampAcc} {candidate : CampaignCandidate} :
    ∀ c ∈ (visitCampaignCandidate idx classes objective cfg currentPhase acc
        candidate).campaigns,
      c ∈ acc.campaigns ∨ c.risk ≤ cfg.riskTolerance := by
  intro c
  unfold visitCampaignCandidate
  exact @foldl_inv _ _
    (fun a : CampAcc => c ∈ a.campaigns → c ∈ acc.campaigns ∨ c.risk ≤ cfg.riskTolerance)
    (campaignTryAction classes objective cfg currentPhase candidate)
    (eligible idx candidate.graph) acc (fun h => Or.inl h)
    (fun a act hPa hact hc => (campaignTryAction_campaigns c hc).elim hPa Or.inr)

/-- The invariant of the campaign depth loop: every emitted campaign obeys
the risk tolerance. -/
theorem campaignLoop_risk (idx : ActionClassIndex) (classes : List ActionClass)
    (objective : NodeType) (cfg : CampaignOptions) (currentPhase : OperationPhase) :
    ∀ (fuel : Nat) (beam : List CampaignCandidate) (campaigns : List Campaign)
      (seen : List String) (cache : Cache),
      (∀ c ∈ campaigns, c.risk ≤ cfg.riskTolerance) →
      ∀ c ∈ campaignLoop idx classes objective cfg currentPhase fuel beam campaigns
          seen cache,
        c.risk ≤ cfg.riskTolerance := by
  intro fuel
  induction fuel with
  | zero => intro beam campaigns seen cache h c hc; exact h c hc
  | succ fuel ih =>
      intro beam campaigns seen cache h c hc
      simp only [campaignLoop] at hc
      have hacc := @foldl_inv _ _
        (fun a : CampAcc => ∀ x ∈ a.campaigns, x.risk ≤ cfg.riskTolerance)
        (visitCampaignCandidate idx classes objective cfg currentPhase)
        (pruneCampaignBeam beam cfg.beamWidth)
        { nextBeam := [], campaigns := campaigns, seen := seen, cache := cache }
        h
        (fun a cand hPa hcand x hx => (visitCampaign_campaigns x hx).elim (hPa x) (fun hh => hh))
      by_cases hne : (pruneCampaignBeam ((pruneCampaignBeam beam cfg.beamWidth).foldl
          (visitCampaignCandidate idx classes objective cfg currentPhase)
          { nextBeam := [], campaigns := campaigns, seen := seen, cache := cache }).nextBeam
          cfg.beamWidth).isEmpty
      · rw [if_pos hne] at hc; exact hacc c hc
      · rw [if_neg hne] at hc
        exact ih _ _ _ _ hacc c hc

/-- The result of a successful `PlanCampaign` is either empty or the sorted
(and possibly truncated) output of a depth loop started with no campaigns, so
that every member obeys the normalised risk tolerance. -/
theorem planCampaign_ok_shape {e : Engine} {objective : NodeType} {opts : CampaignOptions}
    {cs : List Campaign} (hc : planCampaign e objective opts = Except.ok cs) :
    cs = [] ∨
    ∃ raw : List Campaign,
      (∀ c ∈ raw, c.risk ≤ (normalizeCampaignOptions opts).riskTolerance) ∧
      (cs = goSort Campaign.score (fun a b => strLtB (campaignKey a) (campaignKey b)) raw ∨
        cs = (goSort Campaign.score (fun a b => strLtB (campaignKey a) (campaignKey b))
          raw).take (normalizeCampaignOptions opts).topN.toNat) := by
  unfold planCampaign planCampaignSt at hc
  simp only [snapshotFromGraphSt] at hc
  split_ifs at hc with h1 h2 h3
  · exact Or.inl (Except.ok.inj hc).symm
  · right
    refine ⟨_, ?_, Or.inr (Except.ok.inj hc).symm⟩
    intro c hcm
    exact campaignLoop_risk _ _ _ _ _ _ _ _ _ _
      (fun x hx => absurd hx (List.not_mem_nil x)) c hcm
  · right
    refine ⟨_, ?_, Or.inl (Except.ok.inj hc).symm⟩
    intro c hcm
    exact campaignLoop_risk _ _ _ _ _ _ _ _ _ _
      (fun x hx => absurd hx (List.not_mem_nil x)) c hcm

/-- Every campaign of a successful `PlanCampaign` obeys the normalised risk
tolerance. -/
theorem planCampaign_ok_risk {e : Engine} {objective : NodeType} {opts : CampaignOptions}
    {cs : List Campaign} (hc : planCampaign e objective opts = Except.ok cs) :
    ∀ c ∈ cs, c.risk ≤ (normalizeCampaignOptions opts).riskTolerance := by
  intro c hcm
  rcases planCampaign_ok_shape hc with rfl | ⟨raw, hraw, hcs | hcs⟩
  · cases hcm
  · subst hcs; exact hraw c ((mem_goSort _ _).mp hcm)
  · subst hcs; exact hraw c ((mem_goSort _ _).mp (List.mem_of_mem_take hcm))

/-- The campaign planner's result order: score descending, ties ascending on
the campaign key (the formatted action-class id list plus the objective). -/
theorem planCampaign_ok_sorted {e : Engine} {objective : NodeType} {opts : CampaignOptions}
    {cs : List Campaign} (hc : planCampaign e objective opts = Except.ok cs) :
    cs.Pairwise (fun a b => b.score < a.score ∨
      (b.score = a.score ∧ strLtB (campaignKey b) (campaignKey a) = false)) := by
  have hconv : ∀ raw : List Campaign,
      (goSort Campaign.score (fun a b => strLtB (campaignKey a) (campaignKey b))
        raw).Pairwise (fun a b => b.score < a.score ∨
          (b.score = a.score ∧ strLtB (campaignKey b) (campaignKey a) = false)) := by
    intro raw
    have hpw := goSort_pairwise Campaign.score
      (fun a b => strLtB (campaignKey a) (campaignKey b))
      (strKeyLt_asymm campaignKey) (strKeyLt_negtrans campaignKey) raw
    refine List.Pairwise.imp ?_ hpw
    intro a b hab
    rw [goSortLe_iff] at hab
    exact hab
  rcases planCampaign_ok_shape hc with rfl | ⟨raw, hraw, hcs | hcs⟩
  · exact List.Pairwise.nil
  · subst hcs; exact hconv raw
  · subst hcs; exact List.Pairwise.sublist (List.take_sublist _ _) (hconv raw)

/-! ### Claims C1, C3 and C5: uniqueness, ordering and risk bounds of the
planners' results -/

/-- Claim C1 (corrected): the attack-path half of the uniqueness claim holds —
through `actionInStack`, `ExpandAttackPaths` never repeats an action-class id
within one returned path — but `PlanCampaign` has no such filter, and
`c1_step_uniqueness_counterexample` exhibits a returned campaign whose step
sequence contains the same action-class id twice. -/
theorem c1_step_uniqueness_amended (e : Engine) (st : Option CampaignState)
    (ps : List AttackPath) (hp : expandAttackPaths e st = Except.ok ps) :
    ∀ p ∈ ps, (p.steps.map Hypothesis.actionClassID).Nodup :=
  fun p hpm => (expandAttackPaths_ok_paths hp p hpm).2

/-- Counterexample to claim C1 as stated: with a single always-applicable
action class and depth 2, `PlanCampaign` returns a campaign whose steps are
`[AC-1, AC-1]`. -/
theorem c1_step_uniqueness_counterexample :
    ¬ exceptAll
      (fun cs => ∀ c ∈ cs, (c.steps.map AttackStep.actionClassID).Nodup)
      (planCampaign engC1 "attack_path" optsC1) := by decide

theorem c1_step_uniqueness_witness :
    expandAttackPaths engAW none = Except.ok psW ∧
    ∀ p ∈ psW, (p.steps.map Hypothesis.actionClassID).Nodup :=
  ⟨by decide, c1_step_uniqueness_amended engAW none psW (by decide)⟩

/-- Claim C5 (corrected): the risk bound holds for `ExpandAttackPaths` only
when the (normalised) risk threshold is positive — a non-positive threshold
disables the risk check rather than bounding risk by it, see
`c5_risk_bound_counterexample` — and for `PlanCampaign` with respect to the
normalised risk tolerance (a non-positive tolerance is replaced by the
default `2.0`, so the configured value does not bound anything). -/
theorem c5_risk_bound_amended (e : Engine) (st : Option CampaignState)
    (objective : NodeType) (opts : CampaignOptions)
    (ps : List AttackPath) (cs : List Campaign)
    (hp : expandAttackPaths e st = Except.ok ps)
    (hc : planCampaign e objective opts = Except.ok cs)
    (hthr : 0 < (normalizeAttackPathConfig e.attackPathConfig).riskThreshold) :
    (∀ p ∈ ps, p.risk ≤ (normalizeAttackPathConfig e.attackPathConfig).riskThreshold) ∧
    (∀ c ∈ cs, c.risk ≤ (normalizeCampaignOptions opts).riskTolerance) :=
  ⟨fun p hpm => (expandAttackPaths_ok_paths hp p hpm).1 hthr, planCampaign_ok_risk hc⟩

/-- Counterexample to claim C5 as stated: with `riskThreshold = 0` the search
returns a path of cumulative risk `0.5 > 0`. -/
theorem c5_risk_bound_counterexample :
    ¬ exceptAll (fun ps => ∀ p ∈ ps, p.risk ≤ engC5.attackPathConfig.riskThreshold)
      (expandAttackPaths engC5 none) := by decide

theorem c5_risk_bound_witness :
    (expandAttackPaths engAW none = Except.ok psW ∧
      planCampaign engAW "technique" optsC1 = Except.ok csW ∧
      0 < (normalizeAttackPathConfig engAW.attackPathConfig).riskThreshold) ∧
    ((∀ p ∈ psW, p.risk ≤ (normalizeAttackPathConfig engAW.attackPathConfig).riskThreshold) ∧
      (∀ c ∈ csW, c.risk ≤ (normalizeCampaignOptions optsC1).riskTolerance)) :=
  ⟨⟨by decide, by decide, by decide⟩,
    c5_risk_bound_amended engAW none "technique" optsC1 psW csW
      (by decide) (by decide) (by decide)⟩

/-- Claim C3 (corrected): both planners sort by score descending, but neither
uses the claimed tie-break chain — `ExpandAttackPaths` breaks ties only by
the shorter path (no lexicographic comparison at all), and `PlanCampaign`
breaks ties by the byte-wise order of the campaign key (the Go-formatted id
list concatenated with `"|"` and the objective), not by path length first:
`c3_result_ordering_counterexample` shows two equal-score one-step campaigns
returned in the opposite of the claimed lexicographic order. -/
theorem c3_result_ordering_amended (e : Engine) (st : Option CampaignState)
    (objective : NodeType) (opts : CampaignOptions)
    (ps : List AttackPath) (cs : List Campaign)
    (hp : expandAttackPaths e st = Except.ok ps)
    (hc : planCampaign e objective opts = Except.ok cs) :
    ps.Pairwise (fun a b => b.score < a.score ∨
      (b.score = a.score ∧ a.steps.length ≤ b.steps.length)) ∧
    cs.Pairwise (fun a b => b.score < a.score ∨
      (b.score = a.score ∧ strLtB (campaignKey b) (campaignKey a) = false)) :=
  ⟨expandAttackPaths_ok_sorted hp, planCampaign_ok_sorted hc⟩

/-- Counterexample to claim C3 as stated: the campaigns for ids `"A"` and
`"AB"` tie on score and length, the claimed order puts `["A"]` before
`["AB"]`, but `PlanCampaign` returns `["AB"]` first (its key
`"[AB]|attack_path"` is byte-wise smaller, `'B' < ']'`). -/
theorem c3_result_ordering_counterexample :
    ¬ exceptAll (fun cs => cs.Pairwise claimedCampaignOrder)
      (planCampaign engC3 "attack_path" optsC3) := by decide

theorem c3_result_ordering_witness :
    (expandAttackPaths engAW none = Except.ok psW ∧
      planCampaign engAW "technique" optsC1 = Except.ok csW) ∧
    (psW.Pairwise (fun a b => b.score < a.score ∨
        (b.score = a.score ∧ a.steps.length ≤ b.steps.length)) ∧
      csW.Pairwise (fun a b => b.score < a.score ∨
        (b.score = a.score ∧ strLtB (campaignKey b) (campaignKey a) = false))) :=
  ⟨⟨by decide, by decide⟩,
    c3_result_ordering_amended engAW none "technique" optsC1 psW csW
      (by decide) (by decide)⟩

/-! ### Claim C8: executor failure still yields the decision and ingested,
signed evidence -/

/-- `RunCycle` on a valid cycle config returns the planned decision together
with the executor's error, and ingests the event of the returned artifact
(through the binder when possible, else through `IngestEvidence`). -/
theorem runCycle_executor_error (e : REngine) (cfg : CycleConfig) (decision : Decision)
    (artifact : Artifact) (err : String) (nowNano : Int)
    (h1 : cfg.target ≠ "") (h2 : cfg.hasExecutor = true)
    (h3 : artifact.techniqueID ≠ "") (h4 : artifact.target ≠ "") :
    (runCycle e cfg (Except.ok decision) (some artifact, some err) nowNano).decision =
      some decision ∧
    (runCycle e cfg (Except.ok decision) (some artifact, some err) nowNano).error =
      some err ∧
    (runCycle e cfg (Except.ok decision) (some artifact, some err) nowNano).ingested =
      [eventOfArtifact artifact] := by
  have h2' : ¬ ¬ cfg.hasExecutor = true := by rw [h2]; simp
  unfold runCycle
  rw [if_neg h1, if_neg h2']
  dsimp only
  refine ⟨rfl, rfl, ?_⟩
  cases happ : (if decision.selected.actionClassID ≠ "" then
        match assocGet e.binderClasses decision.selected.actionClassID with
        | some ac =>
            match applyActionToGraph e.graph ac (eventOfArtifact artifact) nowNano with
            | .ok g2 => some g2
            | .error _ => none
        | none => none
      else none) with
  | none =>
      dsimp only
      rw [ingestEvidence, if_neg (by simp [eventOfArtifact, h3, h4])]
  | some g2 => rfl

/-- A signed artifact (integrity field freshly set to the hash of the
canonical payload, which excludes it) verifies. -/
theorem artifactVerify_of_signed (hashFn : SignedView → String) (a : Artifact)
    (h : a.integrity = hashFn (canonicalPayload a)) (hne : ¬ a.integrity = "") :
    artifactVerify hashFn a = Except.ok true := by
  unfold artifactVerify
  rw [if_neg hne]
  simp [h]

/-- `executor.Engine.Run`, once execution is attempted (all outer guards
pass), always returns a verifying signed artifact whose event it ingested —
whatever the technique resolution error and whether or not the added
exposure halts the campaign. -/
theorem engineRun_signs_and_ingests (e : ExecEngine) (techniqueID target : String)
    (decision : Decision) (resolution : Resolution) (resolveErr : Option String)
    (uuid : String) (startedAt nowRoe : Int) (hashFn : SignedView → String)
    (h1 : e.campaign.status ≠ CStatus.halted) (h2 : e.campaign.status ≠ CStatus.completed)
    (h3 : e.exposure.halted = false)
    (h4 : roeEnforce e.contract techniqueID target nowRoe = none)
    (h5 : uuid ≠ "") (h6 : e.contract.campaignID ≠ "")
    (h7 : decision.selected.techniqueID ≠ "") (h8 : target ≠ "") (h9 : startedAt ≠ 0)
    (hhash : ∀ v, hashFn v ≠ "") :
    ∃ a : Artifact,
      (engineRun e false techniqueID target (Except.ok decision) true resolution
        resolveErr uuid startedAt nowRoe hashFn).artifact = some a ∧
      artifactVerify hashFn a = Except.ok true ∧
      (engineRun e false techniqueID target (Except.ok decision) true resolution
        resolveErr uuid startedAt nowRoe hashFn).ingested = [eventOfArtifact a] := by
  unfold engineRun
  rw [if_neg (show ¬ ((false : Bool) = true) by simp)]
  rw [if_neg (not_or.mpr ⟨h1, h2⟩)]
  dsimp only
  rw [if_neg (show ¬ (e.exposure.halted = true) by simp [h3])]
  rw [h4]
  dsimp only
  rw [if_neg (show ¬ ¬ ((true : Bool) = true) by simp)]
  simp only [artifactSign, artifactValidate]
  dsimp only
  rw [if_neg h5, if_neg h6, if_neg h7, if_neg h8, if_neg h9]
  dsimp only
  rw [if_neg (show ¬ (("" : String) ≠ "") by simp)]
  dsimp only [eventOfArtifact]
  rw [if_neg (show ¬ (decision.selected.techniqueID = "" ∨ target = "") from
    not_or.mpr ⟨h7, h8⟩)]
  rcases resolveErr with _ | er <;> split_ifs <;>
    exact ⟨_, rfl, artifactVerify_of_signed hashFn _ rfl (hhash _), rfl⟩

/-- Claim C8 (confirmed): when the executor's `Run` returns an error during
`RunCycle`, the engine still returns the computed `Decision` together with
that error and ingests the artifact's evidence event; and for any attempted
execution (all pre-execution guards passed), `executor.Engine.Run` creates a
signed, verifying evidence artifact and ingests its event, whether or not
the technique resolution failed (`resolveErr` arbitrary) and whether or not
the added exposure halts the campaign (the exposure tracker's outcome is
unconstrained).  The field hypotheses are exactly the artifact-validation
requirements of `Artifact.Sign` and of evidence ingestion. -/
theorem c8_executor_failure_evidence
    (re : REngine) (cfg : CycleConfig) (decision : Decision) (artifact : Artifact)
    (err : String) (nowNano : Int)
    (ee : ExecEngine) (techniqueID target : String) (dec2 : Decision)
    (resolution : Resolution) (resolveErr : Option String) (uuid : String)
    (startedAt nowRoe : Int) (hashFn : SignedView → String)
    (hA1 : cfg.target ≠ "") (hA2 : cfg.hasExecutor = true)
    (hA3 : artifact.techniqueID ≠ "") (hA4 : artifact.target ≠ "")
    (hB1 : ee.campaign.status ≠ CStatus.halted)
    (hB2 : ee.campaign.status ≠ CStatus.completed)
    (hB3 : ee.exposure.halted = false)
    (hB4 : roeEnforce ee.contract techniqueID target nowRoe = none)
    (hB5 : uuid ≠ "") (hB6 : ee.contract.campaignID ≠ "")
    (hB7 : dec2.selected.techniqueID ≠ "") (hB8 : target ≠ "") (hB9 : startedAt ≠ 0)
    (hhash : ∀ v, hashFn v ≠ "") :
    ((runCycle re cfg (Except.ok decision) (some artifact, some err) nowNano).decision =
        some decision ∧
      (runCycle re cfg (Except.ok decision) (some artifact, some err) nowNano).error =
        some err ∧
      (runCycle re cfg (Except.ok decision) (some artifact, some err) nowNano).ingested =
        [eventOfArtifact artifact]) ∧
    ∃ a : Artifact,
      (engineRun ee false techniqueID target (Except.ok dec2) true resolution
        resolveErr uuid startedAt nowRoe hashFn).artifact = some a ∧
      artifactVerify hashFn a = Except.ok true ∧
      (engineRun ee false techniqueID target (Except.ok dec2) true resolution
        resolveErr uuid startedAt nowRoe hashFn).ingested = [eventOfArtifact a] :=
  ⟨runCycle_executor_error re cfg decision artifact err nowNano hA1 hA2 hA3 hA4,
    engineRun_signs_and_ingests ee techniqueID target dec2 resolution resolveErr uuid
      startedAt nowRoe hashFn hB1 hB2 hB3 hB4 hB5 hB6 hB7 hB8 hB9 hhash⟩

theorem c8_executor_failure_evidence_witness :
    (cfgC8.target ≠ "" ∧ roeEnforce eeC8.contract "T1595" "t1" 3 = none) ∧
    ((runCycle reC8 cfgC8 (Except.ok decC8) (some artC8, some "boom") 1).decision =
        some decC8 ∧
      (runCycle reC8 cfgC8 (Except.ok decC8) (some artC8, some "boom") 1).error =
        some "boom" ∧
      (runCycle reC8 cfgC8 (Except.ok decC8) (some artC8, some "boom") 1).ingested =
        [eventOfArtifact artC8]) ∧
    ∃ a : Artifact,
      (engineRun eeC8 false "T1595" "t1" (Except.ok decC8) true
        { allowedActionClasses := ["x"] } (some "exec failed") "u1" 5 3 hashC8).artifact =
          some a ∧
      artifactVerify hashC8 a = Except.ok true ∧
      (engineRun eeC8 false "T1595" "t1" (Except.ok decC8) true
        { allowedActionClasses := ["x"] } (some "exec failed") "u1" 5 3 hashC8).ingested =
          [eventOfArtifact a] :=
  ⟨⟨by decide, by decide⟩,
    c8_executor_failure_evidence reC8 cfgC8 decC8 artC8 "boom" 1 eeC8 "T1595" "t1" decC8
      { allowedActionClasses := ["x"] } (some "exec failed") "u1" 5 3 hashC8
      (by decide) (by decide) (by decide) (by decide) (by decide) (by decide) (by decide)
      (by decide) (by decide) (by decide) (by decide) (by decide) (by decide)
      (fun v => show ("H" : String) ≠ "" by decide)⟩

end Vantage
